import Mathlib

/-
  Verification of the OCI-report ingestion pipeline (src/python.py).

  The pipeline downloads cost-report objects from OCI Object Storage for a
  target date, decompresses them, uploads the CSVs to a GCS staging folder,
  loads the staged data into BigQuery with a single WRITE_APPEND load job,
  archives the staged blobs, and then unconditionally cleans up temporary
  credential files, local directories and the run log.

  External effects (secret store, object storage, gzip, BigQuery, the local
  filesystem primitives) are abstracted by an environment record `Env` of
  success/failure oracles; the filesystem is a list of existing file paths;
  the observable behaviour of a run is an event trace plus the final
  filesystem, downloaded/uploaded counters and the process exit code.
-/

-- ===================== string / list utilities =====================

/-- Boolean test that `pat` is a prefix of `s` (character lists). -/
def startsWithL : List Char → List Char → Bool
  | [], _ => true
  | _ :: _, [] => false
  | p :: ps, c :: cs => p == c && startsWithL ps cs

/-- Python `s.endswith(suf)`. -/
def pyEndsWith (s suf : String) : Bool :=
  startsWithL suf.data.reverse s.data.reverse

/-- Python `s.startswith(pat)` (used to model directory containment). -/
def pyStartsWith (pat s : String) : Bool :=
  startsWithL pat.data s.data

/-- The character-list computation behind `os.path.basename`: the segment
after the last path separator. -/
def basenameL (s : List Char) : List Char :=
  (s.reverse.takeWhile (fun c => !(c == '/'))).reverse

/-- Python `os.path.basename` / `name.rsplit("/", 1)[-1]`. -/
def pyBasename (s : String) : String :=
  String.mk (basenameL s.data)

/-- Python `os.path.join(d, f)` for a plain relative filename `f`. -/
def pathJoin (d f : String) : String := d ++ "/" ++ f

/-- Python `s.strip('/')`: drop slashes from both ends. -/
def stripSlashes (s : String) : String :=
  String.mk (((s.data.dropWhile (fun c => c == '/')).reverse.dropWhile
      (fun c => c == '/')).reverse)

/-- Python `s.strip()`: drop whitespace from both ends. -/
def pyStripWs (s : String) : String :=
  String.mk (((s.data.dropWhile Char.isWhitespace).reverse.dropWhile
      Char.isWhitespace).reverse)

/-- One step budgeted form of Python `s.replace(old, new)`: scans left to
right, replacing each non-overlapping occurrence of `pat` by `rep`.  The
`fuel` argument (instantiated with the length of the string) only bounds the
recursion; at least one character is consumed per step, so the result is the
full left-to-right replacement. -/
def replaceFuel (pat rep : List Char) : Nat → List Char → List Char
  | 0, s => s
  | fuel + 1, s =>
    match s with
    | [] => []
    | c :: rest =>
      if pat ≠ [] ∧ startsWithL pat (c :: rest) = true then
        rep ++ replaceFuel pat rep fuel (List.drop (pat.length - 1) rest)
      else
        c :: replaceFuel pat rep fuel rest

/-- Python `s.replace(old, new)`. -/
def pyReplace (s pat rep : String) : String :=
  String.mk (replaceFuel pat.data rep.data s.data.length s.data)

/-- Concatenation of the images of a list under a list-valued function. -/
def flatList (f : α → List β) : List α → List β
  | [] => []
  | a :: l => f a ++ flatList f l

-- ===================== data model =====================

/-- One object descriptor from the OCI listing: a name and a creation
timestamp, modelled as seconds since the UTC epoch. -/
structure RemoteObject where
  name : String
  timeCreated : Nat
  deriving DecidableEq

/-- The date component of a UTC timestamp in seconds: the day index. -/
def dateOf (t : Nat) : Nat := t / 86400

/-- BigQuery source formats (the script only ever uses CSV). -/
inductive SourceFormat where
  | CSV
  | NEWLINE_DELIMITED_JSON
  deriving DecidableEq

/-- BigQuery write dispositions. -/
inductive WriteDisposition where
  | WRITE_APPEND
  | WRITE_TRUNCATE
  | WRITE_EMPTY
  deriving DecidableEq

/-- The `bigquery.LoadJobConfig` fields set by `load_gcs_to_bigquery`. -/
structure LoadJobConfig where
  source_format : SourceFormat
  skip_leading_rows : Nat
  autodetect : Bool
  write_disposition : WriteDisposition
  deriving DecidableEq

/-- Observable external actions of one run. -/
inductive Event where
  | secretAccess (secretId : String)
  | download (objectName : String)
  | gcsUpload (localPath bucket objectPath : String) (ok : Bool)
  | datasetCreate (datasetId : String)
  | loadJob (cfg : LoadJobConfig) (uri : String)
  | archiveList (bucket pfx : String)
  | renameBlob (bucket oldName newName : String)
  | removeFile (path : String)
  | removeTree (dir : String)
  deriving DecidableEq

/-- Environment oracle: outcomes of every external effect the script
performs.  A `Bool`/`Option` failure value models the corresponding Python
exception being raised (or, for upload, the caught-and-logged failure). -/
structure Env where
  /-- Secret Manager payload per secret id; `none` models an access error. -/
  secret : String → Option String
  /-- Whether writing a given temporary file succeeds (IOError otherwise). -/
  writeFileOk : String → Bool
  /-- Whether parsing the INI payload and loading it via the OCI SDK works. -/
  iniParseOk : Bool
  /-- The `tenancy` entry of the loaded OCI config. -/
  ociTenancy : String
  /-- Result of the paginated OCI listing; an error models `ListingError`. -/
  listing : Except Unit (List RemoteObject)
  /-- Whether `get_object` + chunked streaming succeeds per object name. -/
  downloadOk : String → Bool
  /-- Whether gzip decompression succeeds per local gz path. -/
  gzipOk : String → Bool
  /-- Whether a GCS upload succeeds, per bucket and destination object path. -/
  uploadOk : String → String → Bool
  /-- Whether `client.get_dataset` finds the destination dataset. -/
  datasetExists : Bool
  /-- Whether `client.create_dataset` succeeds when the dataset is missing. -/
  createDatasetOk : Bool
  /-- Whether `load_table_from_uri` (job submission) succeeds. -/
  loadSubmitOk : Bool
  /-- Whether the submitted load job reaches a successful terminal state. -/
  loadJobOk : Bool
  /-- `bucket.list_blobs(prefix=...)`: blob names per bucket and prefix. -/
  listBlobs : String → String → List String
  /-- Whether `bucket.rename_blob` succeeds, per source blob name. -/
  renameOk : String → Bool
  /-- Whether `os.remove` succeeds per path. -/
  removeOk : String → Bool
  /-- Whether `shutil.rmtree` succeeds per directory. -/
  rmtreeOk : String → Bool

/-- Modelled from the spec: the module-level configuration constants of
src/python.py (its configuration block is not part of the sources; §6 of the
specification lists them as environment-provided inputs: project identifier,
secret identifiers, source namespace/bucket and path, destination bucket and
staging/archive folder names, warehouse dataset/table identifiers and region,
log locations, temporary credential file paths, and the target processing
date).  The target date is a UTC day index. -/
structure Params where
  GCP_PROJECT_ID : String
  GCP_OCI_CONFIG_SECRET_ID : String
  GCP_OCI_KEY_SECRET_ID : String
  SECRET_VERSION_ID : String
  TEMP_OCI_CONFIG_FILE : String
  TEMP_OCI_KEY_FILE : String
  OCI_REPORT_NAMESPACE : String
  OCI_REPORT_PREFIX : String
  LOCAL_DOWNLOAD_DIR : String
  LOCAL_CSV_DIR : String
  LOCAL_LOG_FILE_PATH : String
  GCS_REPORT_BUCKET_NAME : String
  GCS_STAGING_FOLDER : String
  GCS_ARCHIVE_FOLDER : String
  GCS_LOAD_URI : String
  BIGQUERY_DATASET_ID : String
  BIGQUERY_TABLE_NAME : String
  BIGQUERY_DATASET_LOCATION : String
  LOG_GCS_BUCKET : String
  LOG_GCS_FOLDER : String
  TARGET_REPORT_DATE : Nat

/-- Run state threaded through the pipeline: the set of existing local files,
the event trace, and the two counters of `fetch_oci_reports`. -/
structure RunState where
  fs : List String
  events : List Event
  downloaded : Nat
  uploaded : Nat
  deriving DecidableEq

/-- The OCI configuration dictionary as far as the script reads it. -/
structure OciConfig where
  tenancy : String
  key_file : String
  deriving DecidableEq

/-- Result of `main` when it returns normally. -/
structure RunResult where
  st : RunState
  /-- Whether the critical-error handler ran (the body raised). -/
  criticalError : Bool
  deriving DecidableEq

-- ===================== embedded pipeline functions =====================

/-- Embeds `read_secret_text` (src/python.py:52-75): accesses one Secret
Manager payload, strips surrounding whitespace, and re-raises on access
failure (the error propagates to `main`). -/
def read_secret_text (env : Env) (secret_id : String) (st : RunState) :
    Except RunState (RunState × String) :=
  let st := { st with events := st.events ++ [Event.secretAccess secret_id] }
  match env.secret secret_id with
  | some payload => Except.ok (st, pyStripWs payload)
  | none => Except.error st

/-- Embeds `upload_to_gcs` (src/python.py:77-102): skips (returning `false`)
when the local file does not exist, otherwise uploads to
`folder.strip('/')/basename` (or just the basename when the folder is empty)
and returns whether the upload succeeded; an upload exception is caught and
turned into `false`. -/
def upload_to_gcs (env : Env) (fs : List String)
    (local_file_path bucket_name folder_name : String) :
    Bool × List Event :=
  if local_file_path ∈ fs then
    let filename := pyBasename local_file_path
    let gcs_path :=
      if folder_name = "" then filename
      else stripSlashes folder_name ++ "/" ++ filename
    let ok := env.uploadOk bucket_name gcs_path
    (ok, [Event.gcsUpload local_file_path bucket_name gcs_path ok])
  else
    (false, [])

/-- Embeds `create_oci_config_dict_from_ini` (src/python.py:108-158): writes
the private key to `TEMP_OCI_KEY_FILE`, rewrites the INI `key_file` entry,
writes the result to `TEMP_OCI_CONFIG_FILE`, and loads it via the OCI SDK.
Either write failing, or the INI parse/SDK load failing, raises. -/
def create_oci_config_dict_from_ini (env : Env) (params : Params)
    (_ini_content _key_pem_content : String) (st : RunState) :
    Except RunState (RunState × OciConfig) :=
  if env.writeFileOk params.TEMP_OCI_KEY_FILE then
    let st := { st with fs := params.TEMP_OCI_KEY_FILE :: st.fs }
    if env.iniParseOk then
      if env.writeFileOk params.TEMP_OCI_CONFIG_FILE then
        let st := { st with fs := params.TEMP_OCI_CONFIG_FILE :: st.fs }
        Except.ok (st, { tenancy := env.ociTenancy,
                         key_file := params.TEMP_OCI_KEY_FILE })
      else Except.error st
    else Except.error st
  else Except.error st

/-- Embeds `decompress_gz_file` (src/python.py:160-185): a path not ending in
".gz" is passed through unchanged; otherwise the output path is the
destination directory joined with `basename.replace(".gz", "")`, the output
file is created (even when decompression then fails partway), and the result
is the output path on success or `none` on failure.  The second component is
the list of files created on disk. -/
def decompress_gz_file (env : Env) (gz_path destination_dir : String) :
    Option String × List String :=
  if pyEndsWith gz_path ".gz" = false then
    (some gz_path, [])
  else
    let filename_base := pyBasename gz_path
    let uncompressed_filename := pyReplace filename_base ".gz" ""
    let uncompressed_path := pathJoin destination_dir uncompressed_filename
    if env.gzipOk gz_path then
      (some uncompressed_path, [uncompressed_path])
    else
      (none, [uncompressed_path])

/-- The per-object body of the loop in `fetch_oci_reports`
(src/python.py:227-266): skip objects whose creation date differs from the
target date; download (a failure raises out of the whole fetch); decompress;
upload to the staging folder only when the decompressed path exists and
differs from the downloaded path; count successful uploads. -/
def processObject (env : Env) (params : Params) (st : RunState)
    (obj : RemoteObject) : Except RunState RunState :=
  if dateOf obj.timeCreated ≠ params.TARGET_REPORT_DATE then
    Except.ok st
  else
    if env.downloadOk obj.name then
      let filename := pyBasename obj.name
      let gz_file_path := pathJoin params.LOCAL_DOWNLOAD_DIR filename
      let st := { st with fs := gz_file_path :: st.fs,
                          downloaded := st.downloaded + 1,
                          events := st.events ++ [Event.download obj.name] }
      let dec := decompress_gz_file env gz_file_path params.LOCAL_CSV_DIR
      let st := { st with fs := dec.2 ++ st.fs }
      match dec.1 with
      | some uncompressed_path =>
        if uncompressed_path ≠ gz_file_path then
          let up := upload_to_gcs env st.fs uncompressed_path
            params.GCS_REPORT_BUCKET_NAME params.GCS_STAGING_FOLDER
          Except.ok { st with
            events := st.events ++ up.2,
            uploaded := if up.1 then st.uploaded + 1 else st.uploaded }
        else Except.ok st
      | none => Except.ok st
    else
      Except.error st

/-- The loop of `fetch_oci_reports` over the listed objects. -/
def fetchGo (env : Env) (params : Params) :
    List RemoteObject → RunState → Except RunState RunState
  | [], st => Except.ok st
  | obj :: rest, st =>
    match processObject env params st obj with
    | Except.ok st' => fetchGo env params rest st'
    | Except.error st' => Except.error st'

/-- Embeds `fetch_oci_reports` (src/python.py:187-274): lists the report
bucket (pagination handled by the SDK utility; a listing failure raises) and
processes each object in order.  The `oci_config` argument supplies the
bucket name (the tenancy OCID), which the listing oracle already accounts
for. -/
def fetch_oci_reports (env : Env) (params : Params) (_oci_config : OciConfig)
    (st : RunState) : Except RunState RunState :=
  match env.listing with
  | Except.error _ => Except.error st
  | Except.ok objs => fetchGo env params objs st

/-- The `bigquery.LoadJobConfig` built at src/python.py:293-298: CSV source,
one leading header row skipped, no schema autodetection, WRITE_APPEND. -/
def bqJobConfig : LoadJobConfig :=
  { source_format := SourceFormat.CSV,
    skip_leading_rows := 1,
    autodetect := false,
    write_disposition := WriteDisposition.WRITE_APPEND }

/-- Embeds `load_gcs_to_bigquery` (src/python.py:280-330): ensures the
dataset exists (creating it if missing; a creation failure raises), submits
one load job with `bqJobConfig`, and waits for it; submission failure or a
failed terminal state raises. -/
def load_gcs_to_bigquery (env : Env) (params : Params) (st : RunState) :
    Except RunState RunState :=
  let datasetStep : Except RunState RunState :=
    if env.datasetExists then Except.ok st
    else if env.createDatasetOk then
      Except.ok { st with
        events := st.events ++ [Event.datasetCreate params.BIGQUERY_DATASET_ID] }
    else Except.error st
  match datasetStep with
  | Except.error st' => Except.error st'
  | Except.ok st' =>
    if env.loadSubmitOk then
      let st'' := { st' with
        events := st'.events ++ [Event.loadJob bqJobConfig params.GCS_LOAD_URI] }
      if env.loadJobOk then Except.ok st'' else Except.error st''
    else Except.error st'

/-- The rename loop of `archive_staged_files_in_gcs`: renames each blob to
`dest_prefix ++ basename`; the first rename failure raises, leaving the
earlier renames done. -/
def archiveGo (env : Env) (bucket dstPfx : String) :
    List String → RunState → Except RunState RunState
  | [], st => Except.ok st
  | blobName :: rest, st =>
    if env.renameOk blobName then
      archiveGo env bucket dstPfx rest { st with
        events := st.events ++
          [Event.renameBlob bucket blobName (dstPfx ++ pyBasename blobName)] }
    else Except.error st

/-- Embeds `archive_staged_files_in_gcs` (src/python.py:336-381): lists the
staging folder, drops zero-byte folder markers (names ending in "/"), returns
0 with no renames when nothing remains, and otherwise renames every blob into
the archive folder. -/
def archive_staged_files_in_gcs (env : Env) (params : Params)
    (st : RunState) : Except RunState RunState :=
  let source_pfx := stripSlashes params.GCS_STAGING_FOLDER ++ "/"
  let dest_pfx := stripSlashes params.GCS_ARCHIVE_FOLDER ++ "/"
  let blobs_to_move :=
    env.listBlobs params.GCS_REPORT_BUCKET_NAME source_pfx
  let st := { st with events := st.events ++
      [Event.archiveList params.GCS_REPORT_BUCKET_NAME source_pfx] }
  let files_to_move := blobs_to_move.filter (fun b => !(pyEndsWith b "/"))
  if files_to_move.isEmpty then Except.ok st
  else archiveGo env params.GCS_REPORT_BUCKET_NAME dest_pfx files_to_move st

/-- One guarded temporary-file removal from the cleanup phase
(src/python.py:453-459): remove the path if it exists; an OSError is caught
and only logged as a warning. -/
def removeTempFile (env : Env) (p : String) (st : RunState) : RunState :=
  if p ∈ st.fs then
    if env.removeOk p then
      { st with fs := st.fs.filter (fun q => q != p),
                events := st.events ++ [Event.removeFile p] }
    else st
  else st

/-- One directory removal from `clean_up_local_directories`
(src/python.py:383-392): recursively removes everything under the directory;
an OSError is caught and only logged as a warning. -/
def removeTreeDir (env : Env) (d : String) (st : RunState) : RunState :=
  if env.rmtreeOk d then
    { st with fs := st.fs.filter (fun q => !(pyStartsWith (d ++ "/") q)),
              events := st.events ++ [Event.removeTree d] }
  else st

/-- The final-log step of the `finally` block (src/python.py:464-477): if
the local log file exists, upload it to the log location; on upload success
delete the local copy — that final `os.remove` is not guarded by a
try/except, so its failure raises out of `main`; on upload failure the
local copy remains. -/
def cleanupLogStep (env : Env) (params : Params) (st : RunState) :
    Except RunState RunState :=
  if params.LOCAL_LOG_FILE_PATH ∈ st.fs then
    let up := upload_to_gcs env st.fs params.LOCAL_LOG_FILE_PATH
      params.LOG_GCS_BUCKET params.LOG_GCS_FOLDER
    let st := { st with events := st.events ++ up.2 }
    if up.1 then
      if env.removeOk params.LOCAL_LOG_FILE_PATH then
        Except.ok { st with
          fs := st.fs.filter (fun q => q != params.LOCAL_LOG_FILE_PATH),
          events := st.events ++ [Event.removeFile params.LOCAL_LOG_FILE_PATH] }
      else Except.error st
    else Except.ok st
  else Except.ok st

/-- Embeds the `finally` block of `main` (src/python.py:450-477): remove the
temporary credential config and key files, remove the download and CSV
directories, then run the final-log step. -/
def cleanupPhase (env : Env) (params : Params) (st : RunState) :
    Except RunState RunState :=
  cleanupLogStep env params
    (removeTreeDir env params.LOCAL_CSV_DIR
      (removeTreeDir env params.LOCAL_DOWNLOAD_DIR
        (removeTempFile env params.TEMP_OCI_KEY_FILE
          (removeTempFile env params.TEMP_OCI_CONFIG_FILE st))))

/-- The initial run state: `setup_logging` has created the local log file;
nothing else exists yet and nothing has happened. -/
def initState (params : Params) : RunState :=
  { fs := [params.LOCAL_LOG_FILE_PATH], events := [], downloaded := 0,
    uploaded := 0 }

/-- The `try` body of `main` (src/python.py:417-442): secrets, credential
materialization, fetch/stage, BigQuery load, archive — in that order, each
phase aborting the rest on failure. -/
def runBody (env : Env) (params : Params) : Except RunState RunState :=
  match read_secret_text env params.GCP_OCI_CONFIG_SECRET_ID
      (initState params) with
  | Except.error st => Except.error st
  | Except.ok (st, oci_ini_content) =>
    match read_secret_text env params.GCP_OCI_KEY_SECRET_ID st with
    | Except.error st => Except.error st
    | Except.ok (st, oci_key_pem_content) =>
      match create_oci_config_dict_from_ini env params oci_ini_content
          oci_key_pem_content st with
      | Except.error st => Except.error st
      | Except.ok (st, oci_config_data) =>
        match fetch_oci_reports env params oci_config_data st with
        | Except.error st => Except.error st
        | Except.ok st =>
          match load_gcs_to_bigquery env params st with
          | Except.error st => Except.error st
          | Except.ok st => archive_staged_files_in_gcs env params st

/-- Embeds `main` (src/python.py:398-477): run the body, catch any exception
(recording only a critical log line), then run the cleanup phase
unconditionally.  An exception raised inside cleanup itself (the unguarded
final log removal) propagates out of `main`.  (Named `pipelineMain` because
Lean reserves the name `main` for executable entry points.) -/
def pipelineMain (env : Env) (params : Params) : Except RunState RunResult :=
  match runBody env params with
  | Except.ok st =>
    match cleanupPhase env params st with
    | Except.ok st' => Except.ok { st := st', criticalError := false }
    | Except.error st' => Except.error st'
  | Except.error st =>
    match cleanupPhase env params st with
    | Except.ok st' => Except.ok { st := st', criticalError := true }
    | Except.error st' => Except.error st'

/-- The process exit signal of `if __name__ == "__main__": main()`
(src/python.py:480-481): non-zero exactly when `main` raises. -/
def processExitCode (env : Env) (params : Params) : Nat :=
  match pipelineMain env params with
  | Except.ok _ => 0
  | Except.error _ => 1

-- ===================== observation helpers =====================

/-- The event trace of a run, whether or not `main` raised. -/
def mainEvents (env : Env) (params : Params) : List Event :=
  match pipelineMain env params with
  | Except.ok r => r.st.events
  | Except.error st => st.events

/-- The final local filesystem of a run, whether or not `main` raised. -/
def mainFs (env : Env) (params : Params) : List String :=
  match pipelineMain env params with
  | Except.ok r => r.st.fs
  | Except.error st => st.fs

/-- The final staged-upload counter of a run. -/
def mainUploaded (env : Env) (params : Params) : Nat :=
  match pipelineMain env params with
  | Except.ok r => r.st.uploaded
  | Except.error st => st.uploaded

/-- Whether `main` returned normally, and if so whether the critical-error
handler had run. -/
def mainOutcome (env : Env) (params : Params) : Option Bool :=
  match pipelineMain env params with
  | Except.ok r => some r.criticalError
  | Except.error _ => none

/-- Recognizes archive rename events. -/
def isRenameEvent : Event → Bool
  | Event.renameBlob _ _ _ => true
  | _ => false

/-- Recognizes BigQuery load-job submissions. -/
def isLoadJobEvent : Event → Bool
  | Event.loadJob _ _ => true
  | _ => false

/-- Recognizes OCI object downloads. -/
def isDownloadEvent : Event → Bool
  | Event.download _ => true
  | _ => false

-- ===================== string lemmas =====================

/-- Peeling one character off a prefix test. -/
lemma startsWithL_cons_iff (p : Char) (ps s : List Char) :
    startsWithL (p :: ps) s = true ↔
      ∃ t, s = p :: t ∧ startsWithL ps t = true := by
  cases s with
  | nil => simp [startsWithL]
  | cons c cs =>
    simp only [startsWithL, Bool.and_eq_true, beq_iff_eq, List.cons.injEq]
    constructor
    · rintro ⟨h1, h2⟩
      exact ⟨cs, ⟨h1.symm, rfl⟩, h2⟩
    · rintro ⟨t, ⟨h1, h2⟩, h3⟩
      subst h1
      subst h2
      exact ⟨rfl, h3⟩

/-- A prefix test cannot see past a separator that the pattern lacks. -/
lemma startsWithL_append_slash (pat : List Char) (h : '/' ∉ pat)
    (x y : List Char) :
    startsWithL pat (x ++ '/' :: y) = startsWithL pat x := by
  induction pat generalizing x with
  | nil => simp [startsWithL]
  | cons p ps ih =>
    cases x with
    | nil =>
      have hp : (p == '/') = false := by
        simp only [beq_eq_false_iff_ne, ne_eq]
        intro hh
        exact h (by simp [hh])
      simp [startsWithL, hp]
    | cons a as =>
      simp only [List.cons_append, startsWithL, List.append_eq]
      rw [ih (fun hm => h (List.mem_cons_of_mem _ hm)) as]

/-- A prefix test with a separator-free pattern is unchanged by truncating
the string at its first separator. -/
lemma startsWithL_takeWhile_slash (pat : List Char) (h : '/' ∉ pat)
    (L : List Char) :
    startsWithL pat (L.takeWhile (fun c => !(c == '/'))) =
      startsWithL pat L := by
  induction pat generalizing L with
  | nil => simp [startsWithL]
  | cons p ps ih =>
    cases L with
    | nil => simp
    | cons a as =>
      by_cases ha : a = '/'
      · subst ha
        have hp : (p == '/') = false := by
          simp only [beq_eq_false_iff_ne, ne_eq]
          intro hh
          exact h (by simp [hh])
        simp [List.takeWhile_cons, startsWithL, hp]
      · have hpred : (!(a == '/')) = true := by simp [ha]
        simp only [List.takeWhile_cons, hpred, if_true, startsWithL]
        rw [ih (fun hm => h (List.mem_cons_of_mem _ hm)) as]

/-- Truncating at the first separator recovers a separator-free front. -/
lemma takeWhile_append_slash (x y : List Char) (hx : '/' ∉ x) :
    (x ++ '/' :: y).takeWhile (fun c => !(c == '/')) = x := by
  induction x with
  | nil => simp [List.takeWhile_cons]
  | cons a as ih =>
    have ha : (!(a == '/')) = true := by
      simp only [Bool.not_eq_true']
      simp only [beq_eq_false_iff_ne, ne_eq]
      intro hh
      exact hx (by simp [hh])
    simp only [List.cons_append, List.takeWhile_cons, ha, if_true,
      List.cons.injEq, true_and]
    exact ih (fun hm => hx (List.mem_cons_of_mem _ hm))

/-- The character list of a joined path. -/
lemma data_pathJoin (d f : String) :
    (pathJoin d f).data = d.data ++ '/' :: f.data := by
  have h : ("/" : String).data = ['/'] := rfl
  simp [pathJoin, String.data_append, h]

/-- Joining under a directory does not change a separator-free suffix test. -/
lemma pyEndsWith_pathJoin (d f suf : String) (hs : '/' ∉ suf.data) :
    pyEndsWith (pathJoin d f) suf = pyEndsWith f suf := by
  unfold pyEndsWith
  rw [data_pathJoin, List.reverse_append, List.reverse_cons,
    List.append_assoc, List.singleton_append]
  exact startsWithL_append_slash _
    (fun hm => hs (List.mem_reverse.mp hm)) _ _

/-- Taking the basename does not change a separator-free suffix test. -/
lemma pyEndsWith_pyBasename (s suf : String) (hs : '/' ∉ suf.data) :
    pyEndsWith (pyBasename s) suf = pyEndsWith s suf := by
  unfold pyEndsWith pyBasename basenameL
  rw [show (String.mk ((s.data.reverse.takeWhile
        (fun c => !(c == '/'))).reverse)).data =
      (s.data.reverse.takeWhile (fun c => !(c == '/'))).reverse from rfl]
  rw [List.reverse_reverse]
  exact startsWithL_takeWhile_slash _
    (fun hm => hs (List.mem_reverse.mp hm)) _

/-- A basename contains no path separator. -/
lemma basenameL_no_slash (s : List Char) : '/' ∉ basenameL s := by
  unfold basenameL
  intro hm
  have h1 := List.mem_reverse.mp hm
  have h2 := List.mem_takeWhile_imp h1
  simp at h2

/-- A basename contains no path separator (string form). -/
lemma pyBasename_no_slash (s : String) : '/' ∉ (pyBasename s).data :=
  basenameL_no_slash s.data

/-- The basename of a joined path with a separator-free filename. -/
lemma pyBasename_pathJoin (d f : String) (hf : '/' ∉ f.data) :
    pyBasename (pathJoin d f) = f := by
  unfold pyBasename basenameL
  rw [data_pathJoin, List.reverse_append, List.reverse_cons,
    List.append_assoc, List.singleton_append]
  rw [takeWhile_append_slash _ _ (fun hm => hf (List.mem_reverse.mp hm))]
  rw [List.reverse_reverse]

-- ===================== replace(".gz", "") characterization =====================

/-- Independent characterization of `filename.replace(".gz", "")`: the scan
that deletes every (left-to-right, non-overlapping) occurrence of the three
characters ".gz". -/
def removeGzAll : List Char → List Char
  | '.' :: 'g' :: 'z' :: rest => removeGzAll rest
  | c :: rest => c :: removeGzAll rest
  | [] => []

/-- Shape of a successful ".gz" prefix test. -/
lemma startsWithL_gz_iff (c : Char) (rest : List Char) :
    startsWithL ['.', 'g', 'z'] (c :: rest) = true ↔
      c = '.' ∧ ∃ t, rest = 'g' :: 'z' :: t := by
  cases rest with
  | nil => simp [startsWithL]
  | cons b bs =>
    cases bs with
    | nil => simp [startsWithL]
    | cons b2 bs2 =>
      simp only [startsWithL, Bool.and_eq_true, beq_iff_eq, List.cons.injEq]
      constructor
      · rintro ⟨h1, h2, h3, -⟩
        exact ⟨h1.symm, bs2, h2.symm, h3.symm, rfl⟩
      · rintro ⟨h1, t, h2, h3, h4⟩
        subst h1
        subst h2
        subst h3
        subst h4
        exact ⟨rfl, rfl, rfl, trivial⟩

/-- The matching step of the scan. -/
lemma removeGzAll_cons_match (t : List Char) :
    removeGzAll ('.' :: 'g' :: 'z' :: t) = removeGzAll t := rfl

/-- The non-matching step of the scan. -/
lemma removeGzAll_cons_nomatch (c : Char) (rest : List Char)
    (h : startsWithL ['.', 'g', 'z'] (c :: rest) = false) :
    removeGzAll (c :: rest) = c :: removeGzAll rest := by
  rw [removeGzAll.eq_def]
  split
  · rename_i t heq
    exfalso
    injection heq with h1 h2
    subst h1
    subst h2
    simp [startsWithL] at h
  · rename_i c2 rest2 _ heq
    injection heq with h1 h2
    subst h1
    subst h2
    rfl
  · rename_i heq
    exact absurd heq (by simp)

/-- The scan never lengthens its input. -/
lemma removeGzAll_length_le (s : List Char) :
    (removeGzAll s).length ≤ s.length := by
  induction s using removeGzAll.induct with
  | case1 rest ih =>
    rw [removeGzAll_cons_match]
    exact Nat.le_succ_of_le (Nat.le_succ_of_le (Nat.le_succ_of_le ih))
  | case2 c rest h ih =>
    have hsw : startsWithL ['.', 'g', 'z'] (c :: rest) = false := by
      rcases Bool.eq_false_or_eq_true
          (startsWithL ['.', 'g', 'z'] (c :: rest)) with ht | hf
      · obtain ⟨h1, t, h2⟩ := (startsWithL_gz_iff c rest).mp ht
        exact (h t h1 h2).elim
      · exact hf
    rw [removeGzAll_cons_nomatch c rest hsw]
    simpa using ih
  | case3 => simp [removeGzAll]

/-- The scan only keeps characters of its input. -/
lemma removeGzAll_subset (s : List Char) :
    ∀ a ∈ removeGzAll s, a ∈ s := by
  induction s using removeGzAll.induct with
  | case1 rest ih =>
    intro a ha
    rw [removeGzAll_cons_match] at ha
    simp [ih a ha]
  | case2 c rest h ih =>
    have hsw : startsWithL ['.', 'g', 'z'] (c :: rest) = false := by
      rcases Bool.eq_false_or_eq_true
          (startsWithL ['.', 'g', 'z'] (c :: rest)) with ht | hf
      · obtain ⟨h1, t, h2⟩ := (startsWithL_gz_iff c rest).mp ht
        exact (h t h1 h2).elim
      · exact hf
    intro a ha
    rw [removeGzAll_cons_nomatch c rest hsw] at ha
    rcases List.mem_cons.mp ha with h1 | h1
    · simp [h1]
    · simp [ih a h1]
  | case3 => intro a ha; simp [removeGzAll] at ha

/-- On an input ending in ".gz", the scan strictly shrinks the string. -/
lemma removeGzAll_append_gz_lt (t : List Char) :
    (removeGzAll (t ++ ['.', 'g', 'z'])).length <
      (t ++ ['.', 'g', 'z']).length := by
  induction t with
  | nil => decide
  | cons c t' ih =>
    by_cases hgz :
        startsWithL ['.', 'g', 'z'] (c :: (t' ++ ['.', 'g', 'z'])) = true
    · obtain ⟨h1, u, h2⟩ := (startsWithL_gz_iff _ _).mp hgz
      subst h1
      have hlen : (t' ++ ['.', 'g', 'z']).length = u.length + 2 := by
        rw [h2]; simp
      rw [List.cons_append, h2, removeGzAll_cons_match]
      have hle := removeGzAll_length_le u
      simp only [List.length_cons]
      omega
    · have hsw : startsWithL ['.', 'g', 'z']
          (c :: (t' ++ ['.', 'g', 'z'])) = false := by
        rcases Bool.eq_false_or_eq_true
            (startsWithL ['.', 'g', 'z'] (c :: (t' ++ ['.', 'g', 'z'])))
          with ht | hf
        · exact absurd ht hgz
        · exact hf
      rw [List.cons_append, removeGzAll_cons_nomatch _ _ hsw]
      simpa using ih

/-- The fueled generic replacement, specialized to pattern ".gz" and empty
replacement, is exactly the scan `removeGzAll`. -/
lemma replaceFuel_gz (fuel : Nat) (s : List Char) (h : s.length ≤ fuel) :
    replaceFuel ['.', 'g', 'z'] [] fuel s = removeGzAll s := by
  induction fuel generalizing s with
  | zero =>
    cases s with
    | nil => rfl
    | cons c cs => simp at h
  | succ n ih =>
    cases s with
    | nil => rfl
    | cons c cs =>
      by_cases hgz : startsWithL ['.', 'g', 'z'] (c :: cs) = true
      · obtain ⟨h1, t, h2⟩ := (startsWithL_gz_iff c cs).mp hgz
        subst h1
        subst h2
        have hcond : (['.', 'g', 'z'] : List Char) ≠ [] ∧
            startsWithL ['.', 'g', 'z'] ('.' :: 'g' :: 'z' :: t) = true := by
          exact ⟨by simp, hgz⟩
        simp only [replaceFuel, if_pos hcond, List.nil_append]
        have hdrop : List.drop (List.length ['.', 'g', 'z'] - 1)
            ('g' :: 'z' :: t) = t := rfl
        rw [hdrop, removeGzAll_cons_match]
        exact ih t (by simp at h; omega)
      · have hsw : startsWithL ['.', 'g', 'z'] (c :: cs) = false := by
          rcases Bool.eq_false_or_eq_true (startsWithL ['.', 'g', 'z'] (c :: cs))
            with ht | hf
          · exact absurd ht hgz
          · exact hf
        have hcond : ¬ ((['.', 'g', 'z'] : List Char) ≠ [] ∧
            startsWithL ['.', 'g', 'z'] (c :: cs) = true) := by
          rintro ⟨-, hc⟩
          exact hgz hc
        simp only [replaceFuel, if_neg hcond]
        rw [removeGzAll_cons_nomatch c cs hsw]
        have : cs.length ≤ n := by simp at h; omega
        rw [ih cs this]

/-- `s.replace(".gz", "")` is the ".gz"-deleting scan. -/
lemma pyReplace_gz (s : String) :
    pyReplace s ".gz" "" = String.mk (removeGzAll s.data) := by
  unfold pyReplace
  rw [show (".gz" : String).data = ['.', 'g', 'z'] from rfl,
    show ("" : String).data = ([] : List Char) from rfl]
  rw [replaceFuel_gz _ _ (Nat.le_refl _)]

/-- Shape of a string passing the ".gz" suffix test. -/
lemma pyEndsWith_gz_shape (s : String) (h : pyEndsWith s ".gz" = true) :
    ∃ t, s.data = t ++ ['.', 'g', 'z'] := by
  unfold pyEndsWith at h
  rw [show (".gz" : String).data.reverse = ['z', 'g', '.'] from rfl] at h
  obtain ⟨t1, he1, h⟩ := (startsWithL_cons_iff _ _ _).mp h
  obtain ⟨t2, he2, h⟩ := (startsWithL_cons_iff _ _ _).mp h
  obtain ⟨t3, he3, -⟩ := (startsWithL_cons_iff _ _ _).mp h
  refine ⟨t3.reverse, ?_⟩
  have hr : s.data.reverse = 'z' :: 'g' :: '.' :: t3 := by
    rw [he1, he2, he3]
  calc s.data = s.data.reverse.reverse := (List.reverse_reverse _).symm
    _ = ('z' :: 'g' :: '.' :: t3).reverse := by rw [hr]
    _ = t3.reverse ++ ['.', 'g', 'z'] := by simp

-- ===================== per-object characterization =====================

/-- The exact-equality date test applied to one listed object
(src/python.py:228-231). -/
def objMatched (params : Params) (o : RemoteObject) : Bool :=
  dateOf o.timeCreated == params.TARGET_REPORT_DATE

/-- The local path the object is downloaded to (src/python.py:242-243). -/
def objGzPath (params : Params) (o : RemoteObject) : String :=
  pathJoin params.LOCAL_DOWNLOAD_DIR (pyBasename o.name)

/-- The local path the decompressed file is written to
(src/python.py:171-174). -/
def objCsvPath (params : Params) (o : RemoteObject) : String :=
  pathJoin params.LOCAL_CSV_DIR
    (pyReplace (pyBasename (objGzPath params o)) ".gz" "")

/-- The staging-bucket object path the decompressed file is uploaded to
(src/python.py:92). -/
def stagingDest (params : Params) (o : RemoteObject) : String :=
  if params.GCS_STAGING_FOLDER = "" then pyBasename (objCsvPath params o)
  else stripSlashes params.GCS_STAGING_FOLDER ++ "/" ++
    pyBasename (objCsvPath params o)

/-- Whether one listed object ends up counted in the staged-upload counter:
it matched the target date, was a ".gz" file, decompressed successfully, and
its staging upload succeeded. -/
def objStaged (env : Env) (params : Params) (o : RemoteObject) : Bool :=
  objMatched params o &&
    pyEndsWith (objGzPath params o) ".gz" &&
    env.gzipOk (objGzPath params o) &&
    env.uploadOk params.GCS_REPORT_BUCKET_NAME (stagingDest params o)

/-- The events one listed object contributes to the trace. -/
def objEvents (env : Env) (params : Params) (o : RemoteObject) : List Event :=
  if objMatched params o then
    Event.download o.name ::
      (if pyEndsWith (objGzPath params o) ".gz" then
        (if env.gzipOk (objGzPath params o) then
          [Event.gcsUpload (objCsvPath params o)
            params.GCS_REPORT_BUCKET_NAME (stagingDest params o)
            (env.uploadOk params.GCS_REPORT_BUCKET_NAME
              (stagingDest params o))]
        else [])
      else [])
  else []

/-- The local files one listed object leaves on disk. -/
def objNewFiles (_env : Env) (params : Params) (o : RemoteObject) :
    List String :=
  if objMatched params o then
    (if pyEndsWith (objGzPath params o) ".gz" then [objCsvPath params o]
     else []) ++ [objGzPath params o]
  else []

/-- The decompressed path of a ".gz" object always differs from its download
path: their basenames would have to coincide, but deleting the ".gz"
occurrences of a ".gz"-suffixed basename strictly shrinks it. -/
lemma objCsvPath_ne_objGzPath (params : Params) (o : RemoteObject)
    (h : pyEndsWith (objGzPath params o) ".gz" = true) :
    objCsvPath params o ≠ objGzPath params o := by
  intro heq
  have hsuf : '/' ∉ (".gz" : String).data := by decide
  have hbase : '/' ∉ (pyBasename (objGzPath params o)).data :=
    pyBasename_no_slash _
  have hrep : pyReplace (pyBasename (objGzPath params o)) ".gz" "" =
      String.mk (removeGzAll (pyBasename (objGzPath params o)).data) :=
    pyReplace_gz _
  have hrepfree : '/' ∉ (pyReplace (pyBasename (objGzPath params o))
      ".gz" "").data := by
    rw [hrep]
    intro hm
    exact hbase (removeGzAll_subset _ _ hm)
  have hb := congrArg pyBasename heq
  rw [objCsvPath, pyBasename_pathJoin _ _ hrepfree] at hb
  rw [show objGzPath params o =
      pathJoin params.LOCAL_DOWNLOAD_DIR (pyBasename o.name) from rfl] at hb
  rw [pyBasename_pathJoin _ _ (pyBasename_no_slash o.name)] at hb
  rw [show pyBasename (objGzPath params o) =
      pyBasename (pathJoin params.LOCAL_DOWNLOAD_DIR (pyBasename o.name))
      from rfl, pyBasename_pathJoin _ _ (pyBasename_no_slash o.name)]
    at hrep
  rw [hrep] at hb
  have hgz : pyEndsWith (pyBasename o.name) ".gz" = true := by
    rw [show objGzPath params o =
        pathJoin params.LOCAL_DOWNLOAD_DIR (pyBasename o.name) from rfl,
      pyEndsWith_pathJoin _ _ _ hsuf] at h
    exact h
  obtain ⟨t, ht⟩ := pyEndsWith_gz_shape _ hgz
  have hdata := congrArg String.data hb
  rw [show (String.mk (removeGzAll (pyBasename o.name).data)).data =
      removeGzAll (pyBasename o.name).data from rfl] at hdata
  have hlen := congrArg List.length hdata
  rw [ht] at hlen
  have := removeGzAll_append_gz_lt t
  omega

/-- Branch normal form of `decompress_gz_file`. -/
lemma decompress_gz_file_eq (env : Env) (gz_path destination_dir : String) :
    decompress_gz_file env gz_path destination_dir =
      if pyEndsWith gz_path ".gz" = false then (some gz_path, [])
      else if env.gzipOk gz_path then
        (some (pathJoin destination_dir
          (pyReplace (pyBasename gz_path) ".gz" "")),
         [pathJoin destination_dir (pyReplace (pyBasename gz_path) ".gz" "")])
      else
        (none,
         [pathJoin destination_dir (pyReplace (pyBasename gz_path) ".gz" "")])
    := rfl

/-- What one loop iteration of `fetch_oci_reports` does, provided the
object's download does not raise: the counters, trace and filesystem change
exactly by the object's own contribution. -/
lemma processObject_ok (env : Env) (params : Params) (st : RunState)
    (o : RemoteObject)
    (hdl : objMatched params o = true → env.downloadOk o.name = true) :
    processObject env params st o = Except.ok
      { fs := objNewFiles env params o ++ st.fs,
        events := st.events ++ objEvents env params o,
        downloaded := st.downloaded + (if objMatched params o then 1 else 0),
        uploaded :=
          st.uploaded + (if objStaged env params o then 1 else 0) } := by
  by_cases hm : dateOf o.timeCreated = params.TARGET_REPORT_DATE
  · have hmb : objMatched params o = true := by
      simp [objMatched, hm]
    have hd := hdl hmb
    have hgzp : pathJoin params.LOCAL_DOWNLOAD_DIR (pyBasename o.name) =
        objGzPath params o := rfl
    simp only [processObject, if_neg (not_not_intro hm), hd, if_true, hgzp]
    rw [decompress_gz_file_eq]
    by_cases hgz : pyEndsWith (objGzPath params o) ".gz" = true
    · rw [if_neg (by simp [hgz])]
      have hcsvp : pathJoin params.LOCAL_CSV_DIR
          (pyReplace (pyBasename (objGzPath params o)) ".gz" "") =
          objCsvPath params o := rfl
      rw [hcsvp]
      by_cases hok : env.gzipOk (objGzPath params o) = true
      · rw [if_pos hok]
        simp only
        rw [if_pos (objCsvPath_ne_objGzPath params o hgz)]
        simp only [upload_to_gcs,
          if_pos (show objCsvPath params o ∈
            [objCsvPath params o] ++ objGzPath params o :: st.fs by simp)]
        have hdest : (if params.GCS_STAGING_FOLDER = ""
            then pyBasename (objCsvPath params o)
            else stripSlashes params.GCS_STAGING_FOLDER ++ "/" ++
              pyBasename (objCsvPath params o)) = stagingDest params o := rfl
        rw [hdest]
        have hstg : objStaged env params o =
            env.uploadOk params.GCS_REPORT_BUCKET_NAME
              (stagingDest params o) := by
          simp [objStaged, hmb, hgz, hok]
        simp only [objEvents, objNewFiles, hmb, hgz, hok, if_true, hstg]
        by_cases hup : env.uploadOk params.GCS_REPORT_BUCKET_NAME
            (stagingDest params o) = true
        · simp [hup]
        · simp only [Bool.not_eq_true] at hup
          simp [hup]
      · simp only [Bool.not_eq_true] at hok
        rw [if_neg (by simp [hok])]
        have hstg : objStaged env params o = false := by
          simp [objStaged, hok]
        simp [objEvents, objNewFiles, hmb, hgz, hok, hstg]
    · simp only [Bool.not_eq_true] at hgz
      rw [if_pos (by simp [hgz])]
      simp only
      rw [if_neg (not_not_intro rfl)]
      have hstg : objStaged env params o = false := by
        simp [objStaged, hgz]
      simp [objEvents, objNewFiles, hmb, hgz, hstg]
  · have hmb : objMatched params o = false := by
      simp [objMatched, hm]
    simp only [processObject, if_pos hm]
    have hstg : objStaged env params o = false := by
      simp [objStaged, objMatched, hm]
    simp [objEvents, objNewFiles, hmb, hstg]

/-- Distributing `flatList` over an append. -/
lemma flatList_append (f : α → List β) (l1 l2 : List α) :
    flatList f (l1 ++ l2) = flatList f l1 ++ flatList f l2 := by
  induction l1 with
  | nil => simp [flatList]
  | cons a l ih => simp [flatList, ih]

/-- Full characterization of the fetch loop when no download raises: it
returns normally; the trace grows by each object's contribution in listing
order; the downloaded counter counts the date-matched objects; the uploaded
counter counts the successfully staged objects. -/
lemma fetchGo_ok (env : Env) (params : Params) (objs : List RemoteObject)
    (st : RunState)
    (hdl : ∀ o ∈ objs, objMatched params o = true →
      env.downloadOk o.name = true) :
    fetchGo env params objs st = Except.ok
      { fs := flatList (objNewFiles env params) objs.reverse ++ st.fs,
        events := st.events ++ flatList (objEvents env params) objs,
        downloaded :=
          st.downloaded + (objs.filter (objMatched params)).length,
        uploaded :=
          st.uploaded + (objs.filter (objStaged env params)).length } := by
  induction objs generalizing st with
  | nil => simp [fetchGo, flatList]
  | cons o rest ih =>
    have hdo : objMatched params o = true → env.downloadOk o.name = true :=
      hdl o (by simp)
    have hdrest : ∀ o' ∈ rest, objMatched params o' = true →
        env.downloadOk o'.name = true :=
      fun o' hmem => hdl o' (by simp [hmem])
    simp only [fetchGo, processObject_ok env params st o hdo]
    rw [ih _ hdrest]
    simp only [List.reverse_cons, flatList_append, flatList,
      List.filter_cons, List.append_nil, List.append_assoc]
    by_cases hmb : objMatched params o = true
    · by_cases hstg : objStaged env params o = true
      · simp [hmb, hstg] <;> omega
      · simp only [Bool.not_eq_true] at hstg
        simp [hmb, hstg] <;> omega
    · simp only [Bool.not_eq_true] at hmb
      by_cases hstg : objStaged env params o = true
      · simp [hmb, hstg] <;> omega
      · simp only [Bool.not_eq_true] at hstg
        simp [hmb, hstg] <;> omega

-- ===================== phase-level trace and filesystem lemmas =====================

/-- The carried state of a step, successful or raising. -/
def stOf : Except RunState RunState → RunState
  | Except.ok st => st
  | Except.error st => st

/-- The carried state of a secret read. -/
def stOfSecret : Except RunState (RunState × String) → RunState
  | Except.ok (st, _) => st
  | Except.error st => st

/-- The carried state of the credential materialization. -/
def stOfConfig : Except RunState (RunState × OciConfig) → RunState
  | Except.ok (st, _) => st
  | Except.error st => st

/-- A secret read appends exactly its access event. -/
lemma read_secret_text_events (env : Env) (i : String) (st : RunState) :
    (stOfSecret (read_secret_text env i st)).events =
      st.events ++ [Event.secretAccess i] := by
  unfold read_secret_text
  cases h : env.secret i <;> simp [stOfSecret, h]

/-- A secret read leaves the filesystem unchanged. -/
lemma read_secret_text_fs (env : Env) (i : String) (st : RunState) :
    (stOfSecret (read_secret_text env i st)).fs = st.fs := by
  unfold read_secret_text
  cases h : env.secret i <;> simp [stOfSecret, h]

/-- Credential materialization appends no events. -/
lemma create_oci_config_events (env : Env) (params : Params) (a b : String)
    (st : RunState) :
    (stOfConfig (create_oci_config_dict_from_ini env params a b st)).events =
      st.events := by
  unfold create_oci_config_dict_from_ini
  by_cases h1 : env.writeFileOk params.TEMP_OCI_KEY_FILE = true <;>
    by_cases h2 : env.iniParseOk = true <;>
    by_cases h3 : env.writeFileOk params.TEMP_OCI_CONFIG_FILE = true <;>
    simp [stOfConfig, h1, h2, h3]

/-- Credential materialization only adds files. -/
lemma create_oci_config_fs (env : Env) (params : Params) (a b : String)
    (st : RunState) (q : String) (hq : q ∈ st.fs) :
    q ∈ (stOfConfig (create_oci_config_dict_from_ini env params a b st)).fs
    := by
  unfold create_oci_config_dict_from_ini
  by_cases h1 : env.writeFileOk params.TEMP_OCI_KEY_FILE = true <;>
    by_cases h2 : env.iniParseOk = true <;>
    by_cases h3 : env.writeFileOk params.TEMP_OCI_CONFIG_FILE = true <;>
    simp [stOfConfig, h1, h2, h3, hq]

/-- Either a fetch iteration raises with the state unchanged (a download
failure), or it returns the state characterized by `processObject_ok`. -/
lemma processObject_shape (env : Env) (params : Params) (st : RunState)
    (o : RemoteObject) :
    processObject env params st o = Except.error st ∨
      processObject env params st o = Except.ok
        { fs := objNewFiles env params o ++ st.fs,
          events := st.events ++ objEvents env params o,
          downloaded :=
            st.downloaded + (if objMatched params o then 1 else 0),
          uploaded :=
            st.uploaded + (if objStaged env params o then 1 else 0) } := by
  by_cases hd : env.downloadOk o.name = true
  · exact Or.inr (processObject_ok env params st o (fun _ => hd))
  · by_cases hm : dateOf o.timeCreated = params.TARGET_REPORT_DATE
    · refine Or.inl ?_
      simp only [Bool.not_eq_true] at hd
      simp [processObject, if_neg (not_not_intro hm), hd]
    · refine Or.inr ?_
      exact processObject_ok env params st o
        (fun hmb => absurd hmb (by simp [objMatched, hm]))

/-- The events one object contributes are all downloads or uploads. -/
lemma objEvents_filter (env : Env) (params : Params) (o : RemoteObject)
    (p : Event → Bool)
    (hd : ∀ n, p (Event.download n) = false)
    (hu : ∀ a b c k, p (Event.gcsUpload a b c k) = false) :
    (objEvents env params o).filter p = [] := by
  unfold objEvents
  split
  · split
    · split
      · simp [hd, hu]
      · simp [hd]
    · simp [hd]
  · rfl

/-- One fetch iteration preserves any event filter that ignores downloads
and uploads, whether it returns or raises. -/
lemma processObject_filter (env : Env) (params : Params) (st : RunState)
    (o : RemoteObject) (p : Event → Bool)
    (hd : ∀ n, p (Event.download n) = false)
    (hu : ∀ a b c k, p (Event.gcsUpload a b c k) = false) :
    ((stOf (processObject env params st o)).events).filter p =
      st.events.filter p := by
  rcases processObject_shape env params st o with heq | heq <;> rw [heq]
  · rfl
  · simp [stOf, List.filter_append, objEvents_filter env params o p hd hu]

/-- One fetch iteration only adds local files. -/
lemma processObject_fs (env : Env) (params : Params) (st : RunState)
    (o : RemoteObject) (q : String) (hq : q ∈ st.fs) :
    q ∈ (stOf (processObject env params st o)).fs := by
  rcases processObject_shape env params st o with heq | heq <;> rw [heq]
  · exact hq
  · simp [stOf, hq]

/-- The fetch loop preserves any event filter that ignores downloads and
uploads. -/
lemma fetchGo_filter (env : Env) (params : Params) (objs : List RemoteObject)
    (st : RunState) (p : Event → Bool)
    (hd : ∀ n, p (Event.download n) = false)
    (hu : ∀ a b c k, p (Event.gcsUpload a b c k) = false) :
    ((stOf (fetchGo env params objs st)).events).filter p =
      st.events.filter p := by
  induction objs generalizing st with
  | nil => rfl
  | cons o rest ih =>
    have hpo := processObject_filter env params st o p hd hu
    unfold fetchGo
    cases h : processObject env params st o with
    | ok st' =>
      rw [h] at hpo
      simp only [stOf] at hpo
      rw [← hpo]
      exact ih st'
    | error st' =>
      rw [h] at hpo
      simpa [stOf] using hpo

/-- The fetch loop only adds local files. -/
lemma fetchGo_fs (env : Env) (params : Params) (objs : List RemoteObject)
    (st : RunState) (q : String) (hq : q ∈ st.fs) :
    q ∈ (stOf (fetchGo env params objs st)).fs := by
  induction objs generalizing st with
  | nil => exact hq
  | cons o rest ih =>
    have hpo := processObject_fs env params st o q hq
    unfold fetchGo
    cases h : processObject env params st o with
    | ok st' =>
      rw [h] at hpo
      simp only [stOf] at hpo
      exact ih st' hpo
    | error st' =>
      rw [h] at hpo
      simpa [stOf] using hpo

/-- The load phase preserves any event filter that ignores dataset creation
and load-job submission, whether it returns or raises. -/
lemma load_filter (env : Env) (params : Params) (st : RunState)
    (p : Event → Bool)
    (h1 : ∀ d, p (Event.datasetCreate d) = false)
    (h2 : ∀ c u, p (Event.loadJob c u) = false) :
    ((stOf (load_gcs_to_bigquery env params st)).events).filter p =
      st.events.filter p := by
  unfold load_gcs_to_bigquery
  by_cases hde : env.datasetExists = true <;>
    by_cases hcr : env.createDatasetOk = true <;>
    by_cases hsub : env.loadSubmitOk = true <;>
    by_cases hjob : env.loadJobOk = true <;>
    simp [stOf, hde, hcr, hsub, hjob, List.filter_append, h1, h2]

/-- The load phase leaves the filesystem unchanged. -/
lemma load_fs (env : Env) (params : Params) (st : RunState) :
    (stOf (load_gcs_to_bigquery env params st)).fs = st.fs := by
  unfold load_gcs_to_bigquery
  by_cases hde : env.datasetExists = true <;>
    by_cases hcr : env.createDatasetOk = true <;>
    by_cases hsub : env.loadSubmitOk = true <;>
    by_cases hjob : env.loadJobOk = true <;>
    simp [stOf, hde, hcr, hsub, hjob]

/-- A successful load phase implies the submission and the job both
succeeded. -/
lemma load_ok_implies (env : Env) (params : Params) (st st' : RunState)
    (h : load_gcs_to_bigquery env params st = Except.ok st') :
    env.loadSubmitOk = true ∧ env.loadJobOk = true := by
  unfold load_gcs_to_bigquery at h
  by_cases hde : env.datasetExists = true <;>
    by_cases hcr : env.createDatasetOk = true <;>
    by_cases hsub : env.loadSubmitOk = true <;>
    by_cases hjob : env.loadJobOk = true <;>
    simp [hde, hcr, hsub, hjob] at h <;> exact ⟨hsub, hjob⟩

/-- The archive rename loop preserves any event filter that ignores renames,
whether it returns or raises. -/
lemma archiveGo_filter (env : Env) (bucket dstPfx : String)
    (blobs : List String) (st : RunState) (p : Event → Bool)
    (h : ∀ b o n, p (Event.renameBlob b o n) = false) :
    ((stOf (archiveGo env bucket dstPfx blobs st)).events).filter p =
      st.events.filter p := by
  induction blobs generalizing st with
  | nil => rfl
  | cons b rest ih =>
    unfold archiveGo
    by_cases hb : env.renameOk b = true
    · rw [if_pos hb]
      rw [ih _]
      simp [List.filter_append, h]
    · rw [if_neg hb]
      simp [stOf]

/-- The archive phase preserves any event filter that ignores renames and
the staging listing, whether it returns or raises. -/
lemma archive_filter (env : Env) (params : Params) (st : RunState)
    (p : Event → Bool)
    (h1 : ∀ b o n, p (Event.renameBlob b o n) = false)
    (h2 : ∀ b x, p (Event.archiveList b x) = false) :
    ((stOf (archive_staged_files_in_gcs env params st)).events).filter p =
      st.events.filter p := by
  unfold archive_staged_files_in_gcs
  dsimp only
  split
  · simp [stOf, List.filter_append, h2]
  · rw [archiveGo_filter env _ _ _ _ p h1]
    simp [List.filter_append, h2]

/-- The archive rename loop leaves the filesystem unchanged. -/
lemma archiveGo_fs (env : Env) (bucket dstPfx : String)
    (blobs : List String) (st : RunState) :
    (stOf (archiveGo env bucket dstPfx blobs st)).fs = st.fs := by
  induction blobs generalizing st with
  | nil => rfl
  | cons b rest ih =>
    unfold archiveGo
    by_cases hb : env.renameOk b = true
    · rw [if_pos hb, ih]
    · rw [if_neg hb]
      rfl

/-- The archive phase leaves the filesystem unchanged. -/
lemma archive_fs (env : Env) (params : Params) (st : RunState) :
    (stOf (archive_staged_files_in_gcs env params st)).fs = st.fs := by
  unfold archive_staged_files_in_gcs
  dsimp only
  split
  · rfl
  · rw [archiveGo_fs]

-- ===================== cleanup-phase lemmas =====================

/-- A guarded temp-file removal preserves any event filter that ignores file
removals. -/
lemma removeTempFile_filter (env : Env) (f : String) (st : RunState)
    (p : Event → Bool) (h : ∀ x, p (Event.removeFile x) = false) :
    ((removeTempFile env f st).events).filter p = st.events.filter p := by
  unfold removeTempFile
  split
  · split
    · simp [List.filter_append, h]
    · rfl
  · rfl

/-- A guarded temp-file removal only appends events. -/
lemma removeTempFile_events_mem (env : Env) (f : String) (st : RunState)
    (e : Event) (he : e ∈ st.events) :
    e ∈ (removeTempFile env f st).events := by
  unfold removeTempFile
  split
  · split
    · simp [he]
    · exact he
  · exact he

/-- A guarded temp-file removal only removes files. -/
lemma removeTempFile_fs_subset (env : Env) (f : String) (st : RunState)
    (q : String) (hq : q ∈ (removeTempFile env f st).fs) : q ∈ st.fs := by
  unfold removeTempFile at hq
  split at hq
  · split at hq
    · simp at hq
      exact hq.1
    · exact hq
  · exact hq

/-- When its removal primitive succeeds, the guarded removal really deletes
the file. -/
lemma removeTempFile_not_mem_self (env : Env) (f : String) (st : RunState)
    (h : env.removeOk f = true) : f ∉ (removeTempFile env f st).fs := by
  by_cases hm : f ∈ st.fs
  · simp [removeTempFile, hm, h, List.mem_filter]
  · simp only [removeTempFile, if_neg hm]
    exact hm

/-- A guarded removal of a different path keeps a file present. -/
lemma removeTempFile_mem_of_ne (env : Env) (f : String) (st : RunState)
    (q : String) (hq : q ∈ st.fs) (hne : q ≠ f) :
    q ∈ (removeTempFile env f st).fs := by
  unfold removeTempFile
  split
  · split
    · simp [hq, hne]
    · exact hq
  · exact hq

/-- A directory removal preserves any event filter that ignores tree
removals. -/
lemma removeTreeDir_filter (env : Env) (d : String) (st : RunState)
    (p : Event → Bool) (h : ∀ x, p (Event.removeTree x) = false) :
    ((removeTreeDir env d st).events).filter p = st.events.filter p := by
  unfold removeTreeDir
  split
  · simp [List.filter_append, h]
  · rfl

/-- A directory removal only appends events. -/
lemma removeTreeDir_events_mem (env : Env) (d : String) (st : RunState)
    (e : Event) (he : e ∈ st.events) :
    e ∈ (removeTreeDir env d st).events := by
  unfold removeTreeDir
  split
  · simp [he]
  · exact he

/-- A directory removal only removes files. -/
lemma removeTreeDir_fs_subset (env : Env) (d : String) (st : RunState)
    (q : String) (hq : q ∈ (removeTreeDir env d st).fs) : q ∈ st.fs := by
  unfold removeTreeDir at hq
  split at hq
  · simp at hq
    exact hq.1
  · exact hq

/-- A directory removal keeps files that are not under the directory. -/
lemma removeTreeDir_mem_of_outside (env : Env) (d : String) (st : RunState)
    (q : String) (hq : q ∈ st.fs)
    (h : pyStartsWith (d ++ "/") q = false) :
    q ∈ (removeTreeDir env d st).fs := by
  unfold removeTreeDir
  split
  · simp [hq, h]
  · exact hq

/-- The cleanup phase preserves any event filter that ignores file removals,
tree removals and uploads, whether it returns or raises. -/
lemma cleanup_filter (env : Env) (params : Params) (st : RunState)
    (p : Event → Bool)
    (h1 : ∀ x, p (Event.removeFile x) = false)
    (h2 : ∀ x, p (Event.removeTree x) = false)
    (h3 : ∀ a b c k, p (Event.gcsUpload a b c k) = false) :
    ((stOf (cleanupPhase env params st)).events).filter p =
      st.events.filter p := by
  unfold cleanupPhase cleanupLogStep
  have e1 := removeTempFile_filter env params.TEMP_OCI_CONFIG_FILE st p h1
  set st1 := removeTempFile env params.TEMP_OCI_CONFIG_FILE st
  have e2 := removeTempFile_filter env params.TEMP_OCI_KEY_FILE st1 p h1
  set st2 := removeTempFile env params.TEMP_OCI_KEY_FILE st1
  have e3 := removeTreeDir_filter env params.LOCAL_DOWNLOAD_DIR st2 p h2
  set st3 := removeTreeDir env params.LOCAL_DOWNLOAD_DIR st2
  have e4 := removeTreeDir_filter env params.LOCAL_CSV_DIR st3 p h2
  set st4 := removeTreeDir env params.LOCAL_CSV_DIR st3
  split
  all_goals try simp only [upload_to_gcs]
  all_goals (repeat' split)
  all_goals simp [stOf, List.filter_append, h1, h3, e1, e2, e3, e4]

/-- The cleanup phase only appends events, whether it returns or raises. -/
lemma cleanup_events_mem (env : Env) (params : Params) (st : RunState)
    (e : Event) (he : e ∈ st.events) :
    e ∈ (stOf (cleanupPhase env params st)).events := by
  unfold cleanupPhase cleanupLogStep
  have m1 := removeTempFile_events_mem env params.TEMP_OCI_CONFIG_FILE st e he
  have m2 := removeTempFile_events_mem env params.TEMP_OCI_KEY_FILE _ e m1
  have m3 := removeTreeDir_events_mem env params.LOCAL_DOWNLOAD_DIR _ e m2
  have m4 := removeTreeDir_events_mem env params.LOCAL_CSV_DIR _ e m3
  split
  all_goals try simp only [upload_to_gcs]
  all_goals (repeat' split)
  all_goals simp [stOf, m4]

-- ===================== whole-run bridging lemmas =====================

/-- The trace of a run is the trace after cleaning up the body's final
state. -/
lemma mainEvents_eq (env : Env) (params : Params) :
    mainEvents env params =
      (stOf (cleanupPhase env params (stOf (runBody env params)))).events
    := by
  unfold mainEvents pipelineMain
  cases hb : runBody env params with
  | ok st =>
    cases hc : cleanupPhase env params st with
    | ok st' => simp [stOf, hc]
    | error st' => simp [stOf, hc]
  | error st =>
    cases hc : cleanupPhase env params st with
    | ok st' => simp [stOf, hc]
    | error st' => simp [stOf, hc]

/-- The final filesystem of a run is the one after cleaning up the body's
final state. -/
lemma mainFs_eq (env : Env) (params : Params) :
    mainFs env params =
      (stOf (cleanupPhase env params (stOf (runBody env params)))).fs := by
  unfold mainFs pipelineMain
  cases hb : runBody env params with
  | ok st =>
    cases hc : cleanupPhase env params st with
    | ok st' => simp [stOf, hc]
    | error st' => simp [stOf, hc]
  | error st =>
    cases hc : cleanupPhase env params st with
    | ok st' => simp [stOf, hc]
    | error st' => simp [stOf, hc]

-- ===================== runBody walk lemmas =====================

/-- A secret read succeeds exactly on a present secret. -/
lemma read_secret_text_ok (env : Env) (i : String) (st : RunState)
    (v : String) (h : env.secret i = some v) :
    read_secret_text env i st = Except.ok
      ({ st with events := st.events ++ [Event.secretAccess i] },
        pyStripWs v) := by
  simp [read_secret_text, h]

/-- Credential materialization succeeds when both writes and the parse
succeed, pushing the key file and then the config file. -/
lemma create_oci_config_ok (env : Env) (params : Params) (a b : String)
    (st : RunState)
    (hk : env.writeFileOk params.TEMP_OCI_KEY_FILE = true)
    (hp : env.iniParseOk = true)
    (hc : env.writeFileOk params.TEMP_OCI_CONFIG_FILE = true) :
    create_oci_config_dict_from_ini env params a b st = Except.ok
      ({ st with fs := params.TEMP_OCI_CONFIG_FILE ::
          params.TEMP_OCI_KEY_FILE :: st.fs },
        { tenancy := env.ociTenancy, key_file := params.TEMP_OCI_KEY_FILE })
    := by
  simp [create_oci_config_dict_from_ini, hk, hp, hc]

/-- The run state after a successful fetch phase started from a pristine
run: both secrets accessed, credentials materialized, every listed object
processed. -/
def postFetchState (env : Env) (params : Params)
    (objs : List RemoteObject) : RunState :=
  { fs := flatList (objNewFiles env params) objs.reverse ++
      [params.TEMP_OCI_CONFIG_FILE, params.TEMP_OCI_KEY_FILE,
       params.LOCAL_LOG_FILE_PATH],
    events := Event.secretAccess params.GCP_OCI_CONFIG_SECRET_ID ::
      Event.secretAccess params.GCP_OCI_KEY_SECRET_ID ::
      flatList (objEvents env params) objs,
    downloaded := (objs.filter (objMatched params)).length,
    uploaded := (objs.filter (objStaged env params)).length }

/-- When both secrets are present, the credential writes and parse succeed,
the listing succeeds and no matched object's download raises, the body runs
deterministically up to the load phase. -/
lemma runBody_eq (env : Env) (params : Params) (objs : List RemoteObject)
    (v1 v2 : String)
    (hv1 : env.secret params.GCP_OCI_CONFIG_SECRET_ID = some v1)
    (hv2 : env.secret params.GCP_OCI_KEY_SECRET_ID = some v2)
    (hk : env.writeFileOk params.TEMP_OCI_KEY_FILE = true)
    (hp : env.iniParseOk = true)
    (hc : env.writeFileOk params.TEMP_OCI_CONFIG_FILE = true)
    (hl : env.listing = Except.ok objs)
    (hdl : ∀ o ∈ objs, objMatched params o = true →
      env.downloadOk o.name = true) :
    runBody env params =
      (match load_gcs_to_bigquery env params
          (postFetchState env params objs) with
       | Except.error st => Except.error st
       | Except.ok st => archive_staged_files_in_gcs env params st) := by
  unfold runBody
  rw [read_secret_text_ok env _ _ v1 hv1]
  dsimp only
  rw [read_secret_text_ok env _ _ v2 hv2]
  dsimp only
  rw [create_oci_config_ok env params _ _ _ hk hp hc]
  dsimp only
  simp only [fetch_oci_reports, hl]
  rw [fetchGo_ok env params objs _ hdl]
  simp [initState, postFetchState]

/-- When the load job is submitted, the load phase appends exactly one
load-job event, configured by `bqJobConfig`, whether the job then succeeds
or fails. -/
lemma load_filter_loadJob (env : Env) (params : Params) (st : RunState)
    (hds : env.datasetExists = true ∨ env.createDatasetOk = true)
    (hsub : env.loadSubmitOk = true) :
    ((stOf (load_gcs_to_bigquery env params st)).events).filter
        isLoadJobEvent =
      st.events.filter isLoadJobEvent ++
        [Event.loadJob bqJobConfig params.GCS_LOAD_URI] := by
  unfold load_gcs_to_bigquery
  rcases hds with hde | hcr
  · by_cases hjob : env.loadJobOk = true <;>
      simp [stOf, hde, hsub, hjob, List.filter_append, isLoadJobEvent]
  · by_cases hde : env.datasetExists = true <;>
      by_cases hjob : env.loadJobOk = true <;>
      simp [stOf, hde, hcr, hsub, hjob, List.filter_append, isLoadJobEvent]

/-- A fully successful load phase returns the state extended by the optional
dataset-creation event and the single load-job event. -/
lemma load_ok_eq (env : Env) (params : Params) (st : RunState)
    (hds : env.datasetExists = true ∨ env.createDatasetOk = true)
    (hsub : env.loadSubmitOk = true)
    (hjob : env.loadJobOk = true) :
    load_gcs_to_bigquery env params st = Except.ok
      { st with events := st.events ++
          (if env.datasetExists then []
           else [Event.datasetCreate params.BIGQUERY_DATASET_ID]) ++
          [Event.loadJob bqJobConfig params.GCS_LOAD_URI] } := by
  unfold load_gcs_to_bigquery
  rcases hds with hde | hcr
  · simp [hde, hsub, hjob]
  · by_cases hde : env.datasetExists = true <;>
      simp [hde, hcr, hsub, hjob]

/-- The object-contributed trace contains no load-job events. -/
lemma flatList_objEvents_filter (env : Env) (params : Params)
    (objs : List RemoteObject) (p : Event → Bool)
    (hd : ∀ n, p (Event.download n) = false)
    (hu : ∀ a b c k, p (Event.gcsUpload a b c k) = false) :
    (flatList (objEvents env params) objs).filter p = [] := by
  induction objs with
  | nil => rfl
  | cons o rest ih =>
    simp [flatList, List.filter_append, ih,
      objEvents_filter env params o p hd hu]

/-- When the load job cannot succeed, the body's trace contains no rename
events: the archive phase is reached only after a successful load. -/
lemma runBody_no_rename (env : Env) (params : Params)
    (h : env.loadSubmitOk = false ∨ env.loadJobOk = false) :
    ((stOf (runBody env params)).events).filter isRenameEvent = [] := by
  have hrn : ∀ n, isRenameEvent (Event.download n) = false := fun _ => rfl
  have hru : ∀ a b c k, isRenameEvent (Event.gcsUpload a b c k) = false :=
    fun _ _ _ _ => rfl
  have hdc : ∀ d, isRenameEvent (Event.datasetCreate d) = false :=
    fun _ => rfl
  have hlj : ∀ c u, isRenameEvent (Event.loadJob c u) = false :=
    fun _ _ => rfl
  unfold runBody
  have he1 := read_secret_text_events env params.GCP_OCI_CONFIG_SECRET_ID
    (initState params)
  cases h1 : read_secret_text env params.GCP_OCI_CONFIG_SECRET_ID
      (initState params) with
  | error st =>
    rw [h1] at he1
    simp only [stOfSecret] at he1
    simp [stOf, he1, List.filter_append, initState, isRenameEvent]
  | ok pr =>
    obtain ⟨st1, pay1⟩ := pr
    rw [h1] at he1
    simp only [stOfSecret] at he1
    have hf1 : st1.events.filter isRenameEvent = [] := by
      rw [he1]
      simp [initState, isRenameEvent]
    have he2 := read_secret_text_events env params.GCP_OCI_KEY_SECRET_ID st1
    cases h2 : read_secret_text env params.GCP_OCI_KEY_SECRET_ID st1 with
    | error st =>
      rw [h2] at he2
      simp only [stOfSecret] at he2
      simp [stOf, h2, he2, List.filter_append, hf1, isRenameEvent]
    | ok pr2 =>
      obtain ⟨st2, pay2⟩ := pr2
      rw [h2] at he2
      simp only [stOfSecret] at he2
      simp only [h2]
      have hf2 : st2.events.filter isRenameEvent = [] := by
        rw [he2]
        simp [List.filter_append, hf1, isRenameEvent]
      have he3 := create_oci_config_events env params pay1 pay2 st2
      cases h3 : create_oci_config_dict_from_ini env params pay1 pay2 st2
        with
      | error st =>
        rw [h3] at he3
        simp only [stOfConfig] at he3
        simp [stOf, h3, he3, hf2]
      | ok pr3 =>
        obtain ⟨st3, cfg⟩ := pr3
        rw [h3] at he3
        simp only [stOfConfig] at he3
        simp only [h3]
        have hf3 : st3.events.filter isRenameEvent = [] := by
          rw [he3]
          exact hf2
        cases hL : env.listing with
        | error u =>
          simp only [fetch_oci_reports, hL]
          simpa [stOf] using hf3
        | ok objs =>
          simp only [fetch_oci_reports, hL]
          have hff := fetchGo_filter env params objs st3 isRenameEvent hrn hru
          cases h4 : fetchGo env params objs st3 with
          | error st =>
            rw [h4] at hff
            simp only [stOf] at hff
            simp [stOf, h4, hff, hf3]
          | ok st4 =>
            rw [h4] at hff
            simp only [stOf] at hff
            simp only [h4]
            have hf4 : st4.events.filter isRenameEvent = [] := by
              rw [hff]
              exact hf3
            have hlf := load_filter env params st4 isRenameEvent hdc hlj
            cases h5 : load_gcs_to_bigquery env params st4 with
            | error st =>
              rw [h5] at hlf
              simp only [stOf] at hlf
              simp [stOf, h5, hlf, hf4]
            | ok st5 =>
              obtain ⟨hsub, hjob⟩ := load_ok_implies env params st4 st5 h5
              rcases h with hh | hh
              · rw [hsub] at hh
                exact absurd hh (by simp)
              · rw [hjob] at hh
                exact absurd hh (by simp)

/-- The archive rename loop only appends events, whether it returns or
raises. -/
lemma archiveGo_events_mem (env : Env) (bucket dstPfx : String)
    (blobs : List String) (st : RunState) (e : Event)
    (he : e ∈ st.events) :
    e ∈ (stOf (archiveGo env bucket dstPfx blobs st)).events := by
  induction blobs generalizing st with
  | nil => exact he
  | cons b rest ih =>
    unfold archiveGo
    by_cases hb : env.renameOk b = true
    · rw [if_pos hb]
      exact ih _ (by simp [he])
    · rw [if_neg hb]
      exact he

/-- The archive phase only appends events, whether it returns or raises. -/
lemma archive_events_mem (env : Env) (params : Params) (st : RunState)
    (e : Event) (he : e ∈ st.events) :
    e ∈ (stOf (archive_staged_files_in_gcs env params st)).events := by
  unfold archive_staged_files_in_gcs
  dsimp only
  split
  · simp [stOf, he]
  · exact archiveGo_events_mem env _ _ _ _ e (by simp [he])

/-- The archive phase always records its listing of the staging folder. -/
lemma archive_archiveList_mem (env : Env) (params : Params) (st : RunState) :
    Event.archiveList params.GCS_REPORT_BUCKET_NAME
        (stripSlashes params.GCS_STAGING_FOLDER ++ "/") ∈
      (stOf (archive_staged_files_in_gcs env params st)).events := by
  unfold archive_staged_files_in_gcs
  dsimp only
  split
  · simp [stOf]
  · exact archiveGo_events_mem env _ _ _ _ _ (by simp)

-- ===================== concrete instances =====================

/-- A concrete configuration used to exercise the pipeline. -/
def params0 : Params :=
  { GCP_PROJECT_ID := "gcp-proj"
  , GCP_OCI_CONFIG_SECRET_ID := "oci-config-ini-file-text"
  , GCP_OCI_KEY_SECRET_ID := "oci-private-key-pem-text"
  , SECRET_VERSION_ID := "latest"
  , TEMP_OCI_CONFIG_FILE := "oci_config_temp"
  , TEMP_OCI_KEY_FILE := "oci_api_key_temp.pem"
  , OCI_REPORT_NAMESPACE := "bling"
  , OCI_REPORT_PREFIX := "reports/cost-csv"
  , LOCAL_DOWNLOAD_DIR := "downloaded_reports"
  , LOCAL_CSV_DIR := "csv_reports"
  , LOCAL_LOG_FILE_PATH := "pipeline_run.log"
  , GCS_REPORT_BUCKET_NAME := "reports-bucket"
  , GCS_STAGING_FOLDER := "staging"
  , GCS_ARCHIVE_FOLDER := "processed"
  , GCS_LOAD_URI := "gs://reports-bucket/staging/*"
  , BIGQUERY_DATASET_ID := "oci_cost"
  , BIGQUERY_TABLE_NAME := "cost_reports"
  , BIGQUERY_DATASET_LOCATION := "US"
  , LOG_GCS_BUCKET := "log-bucket"
  , LOG_GCS_FOLDER := "logs"
  , TARGET_REPORT_DATE := 20000 }

/-- A report created exactly at midnight UTC of the target date. -/
def objMidnight : RemoteObject :=
  { name := "reports/cost-csv/r1.csv.gz", timeCreated := 20000 * 86400 }

/-- A report created one second before midnight of the target date, i.e. on
the previous day. -/
def objDayBefore : RemoteObject :=
  { name := "reports/cost-csv/r0.csv.gz", timeCreated := 20000 * 86400 - 1 }

/-- A report created exactly at midnight of the day after the target date. -/
def objDayAfter : RemoteObject :=
  { name := "reports/cost-csv/r2.csv.gz", timeCreated := 20001 * 86400 }

/-- A matched report that is not gz-compressed. -/
def objPlainCsv : RemoteObject :=
  { name := "reports/cost-csv/r3.csv", timeCreated := 20000 * 86400 + 3600 }

/-- A second matched gz report (used to show failures stay local). -/
def objSecondGz : RemoteObject :=
  { name := "reports/cost-csv/r4.csv.gz", timeCreated := 20000 * 86400 + 60 }

/-- An environment in which every external effect succeeds and the listing
returns reports on the boundary timestamps around the target date. -/
def envAllOk : Env :=
  { secret := fun _ => some "secret-payload"
  , writeFileOk := fun _ => true
  , iniParseOk := true
  , ociTenancy := "ocid1.tenancy.oc1..aaaa"
  , listing := Except.ok [objDayBefore, objMidnight, objDayAfter]
  , downloadOk := fun _ => true
  , gzipOk := fun _ => true
  , uploadOk := fun _ _ => true
  , datasetExists := true
  , createDatasetOk := true
  , loadSubmitOk := true
  , loadJobOk := true
  , listBlobs := fun _ pfx => [pfx, pfx ++ "r1.csv"]
  , renameOk := fun _ => true
  , removeOk := fun _ => true
  , rmtreeOk := fun _ => true }

/-- The all-success environment with the first secret access failing. -/
def envSecretFail : Env :=
  { envAllOk with secret := fun _ => none }

/-- The all-success environment with the load job reaching a failed terminal
state. -/
def envLoadFail : Env :=
  { envAllOk with loadJobOk := false }

/-- The all-success environment with an empty listing: nothing matches, so
nothing is staged. -/
def envEmptyListing : Env :=
  { envAllOk with listing := Except.ok [] }

/-- An environment where, among two matched gz reports and one plain report,
the first report's decompression fails and the second one's staging upload
fails. -/
def envLocalFailures : Env :=
  { envAllOk with
      listing := Except.ok [objMidnight, objSecondGz, objPlainCsv],
      gzipOk := fun p => !(p == "downloaded_reports/r1.csv.gz"),
      uploadOk := fun _ dest => !(dest == "staging/r4.csv") }

/-- Per object, the download events it contributes. -/
lemma objEvents_filter_download (env : Env) (params : Params)
    (o : RemoteObject) :
    (objEvents env params o).filter isDownloadEvent =
      if objMatched params o then [Event.download o.name] else [] := by
  unfold objEvents
  split
  · split
    · split <;> simp [isDownloadEvent]
    · simp [isDownloadEvent]
  · rfl

/-- The download events of a whole listing are exactly the matched objects,
in order. -/
lemma flatList_filter_download (env : Env) (params : Params)
    (objs : List RemoteObject) :
    (flatList (objEvents env params) objs).filter isDownloadEvent =
      (objs.filter (objMatched params)).map
        (fun o => Event.download o.name) := by
  induction objs with
  | nil => rfl
  | cons o rest ih =>
    by_cases hm : objMatched params o = true
    · simp [flatList, List.filter_append, objEvents_filter_download, hm, ih,
        List.filter_cons]
    · simp only [Bool.not_eq_true] at hm
      simp [flatList, List.filter_append, objEvents_filter_download, hm, ih,
        List.filter_cons]

-- ===================== the claims =====================

/-- C1: the claim says a run in which credential setup, listing, or the
warehouse load raises must exit non-zero, distinct from a successful run.
The code violates this: `main` catches every exception (src/python.py:446)
and never calls `sys.exit`, so a run whose very first secret access raises
still terminates with exit signal 0 — exactly the exit signal of a fully
successful run — even though its critical-error handler ran. -/
theorem c1_exit_signal_zero_despite_critical_failure :
    processExitCode envSecretFail params0 = 0 ∧
    mainOutcome envSecretFail params0 = some true ∧
    processExitCode envAllOk params0 = 0 ∧
    mainOutcome envAllOk params0 = some false := by
  refine ⟨by decide, by decide, by decide, by decide⟩

/-- C2 counterexample: a run that stages zero files (its listing is empty)
still submits the BigQuery load job and still invokes the archive phase
(observed by its listing of the staging folder): there is no zero-count
skip in src/python.py — `main` calls `load_gcs_to_bigquery` and
`archive_staged_files_in_gcs` unconditionally after the fetch. -/
theorem c2_counterexample_zero_staged_still_loads :
    mainUploaded envEmptyListing params0 = 0 ∧
    Event.loadJob bqJobConfig params0.GCS_LOAD_URI ∈
      mainEvents envEmptyListing params0 ∧
    Event.archiveList params0.GCS_REPORT_BUCKET_NAME "staging/" ∈
      mainEvents envEmptyListing params0 := by
  refine ⟨by decide, by decide, by decide⟩

/-- C2 (amended): for every run whose staged-file count after the
fetch/stage phase is zero, the WarehouseLoader and the ArchiveMover are
nevertheless invoked — the pipeline proceeds from fetch straight into the
load and archive phases unconditionally; the staged-file count gates
nothing. -/
theorem c2_amended_load_and_archive_run_unconditionally
    (env : Env) (params : Params) (objs : List RemoteObject) (v1 v2 : String)
    (hv1 : env.secret params.GCP_OCI_CONFIG_SECRET_ID = some v1)
    (hv2 : env.secret params.GCP_OCI_KEY_SECRET_ID = some v2)
    (hk : env.writeFileOk params.TEMP_OCI_KEY_FILE = true)
    (hp : env.iniParseOk = true)
    (hc : env.writeFileOk params.TEMP_OCI_CONFIG_FILE = true)
    (hl : env.listing = Except.ok objs)
    (hdl : ∀ o ∈ objs, objMatched params o = true →
      env.downloadOk o.name = true)
    (hz : (objs.filter (objStaged env params)).length = 0)
    (hds : env.datasetExists = true ∨ env.createDatasetOk = true)
    (hsub : env.loadSubmitOk = true)
    (hjob : env.loadJobOk = true) :
    Event.loadJob bqJobConfig params.GCS_LOAD_URI ∈ mainEvents env params ∧
    Event.archiveList params.GCS_REPORT_BUCKET_NAME
        (stripSlashes params.GCS_STAGING_FOLDER ++ "/") ∈
      mainEvents env params := by
  rw [mainEvents_eq]
  rw [runBody_eq env params objs v1 v2 hv1 hv2 hk hp hc hl hdl]
  rw [load_ok_eq env params _ hds hsub hjob]
  dsimp only
  constructor
  · apply cleanup_events_mem
    apply archive_events_mem
    simp
  · apply cleanup_events_mem
    exact archive_archiveList_mem env params _

/-- Witness for the amended C2 at a concrete zero-staged run. -/
theorem c2_amended_witness :
    Event.loadJob bqJobConfig params0.GCS_LOAD_URI ∈
      mainEvents envEmptyListing params0 ∧
    Event.archiveList params0.GCS_REPORT_BUCKET_NAME
        (stripSlashes params0.GCS_STAGING_FOLDER ++ "/") ∈
      mainEvents envEmptyListing params0 :=
  c2_amended_load_and_archive_run_unconditionally envEmptyListing params0 []
    "secret-payload" "secret-payload" rfl rfl rfl rfl rfl rfl
    (by intro o ho; simp at ho) rfl (Or.inl rfl) rfl rfl

/-- C3: in every run in which the warehouse load cannot reach a successful
terminal state (its submission raises or the job fails), the whole run
performs no archive rename against the destination bucket: the archive
phase runs only after `load_gcs_to_bigquery` returns successfully, and the
cleanup phase performs no renames. -/
theorem c3_no_renames_when_load_fails (env : Env) (params : Params)
    (h : env.loadSubmitOk = false ∨ env.loadJobOk = false) :
    (mainEvents env params).filter isRenameEvent = [] := by
  rw [mainEvents_eq]
  rw [cleanup_filter env params _ isRenameEvent (fun _ => rfl) (fun _ => rfl)
    (fun _ _ _ _ => rfl)]
  exact runBody_no_rename env params h

/-- Witness for C3: a concrete run whose load job fails performs no
renames. -/
theorem c3_witness :
    (mainEvents envLoadFail params0).filter isRenameEvent = [] :=
  c3_no_renames_when_load_fails envLoadFail params0 (Or.inr rfl)

/-- A concrete OCI config value for witnesses. -/
def cfg0 : OciConfig :=
  { tenancy := "ocid1.tenancy.oc1..aaaa", key_file := "oci_api_key_temp.pem" }

/-- The state produced by a fetch phase in which no download raises. -/
def fetchResultState (env : Env) (params : Params)
    (objs : List RemoteObject) (st : RunState) : RunState :=
  { fs := flatList (objNewFiles env params) objs.reverse ++ st.fs,
    events := st.events ++ flatList (objEvents env params) objs,
    downloaded := st.downloaded + (objs.filter (objMatched params)).length,
    uploaded := st.uploaded + (objs.filter (objStaged env params)).length }

/-- `fetch_oci_reports` under a successful listing with no download
failures. -/
lemma fetch_oci_reports_ok (env : Env) (params : Params) (cfg : OciConfig)
    (objs : List RemoteObject) (st : RunState)
    (hl : env.listing = Except.ok objs)
    (hdl : ∀ o ∈ objs, objMatched params o = true →
      env.downloadOk o.name = true) :
    fetch_oci_reports env params cfg st =
      Except.ok (fetchResultState env params objs st) := by
  simp only [fetch_oci_reports, hl]
  exact fetchGo_ok env params objs st hdl

/-- C4: among the objects returned by the listing, exactly those whose
creation timestamp's date component equals the target date are selected:
the downloaded counter counts precisely the matched objects and the
download events are precisely the matched objects' names, in listing order.
`objMatched` is the exact-equality test `dateOf timeCreated == target`, so
objects from any other day — including ones created exactly at midnight of
the adjacent days — contribute nothing. -/
theorem c4_exact_date_selection (env : Env) (params : Params)
    (cfg : OciConfig) (objs : List RemoteObject) (st : RunState)
    (hl : env.listing = Except.ok objs)
    (hdl : ∀ o ∈ objs, objMatched params o = true →
      env.downloadOk o.name = true) :
    ∃ st', fetch_oci_reports env params cfg st = Except.ok st' ∧
      st'.downloaded = st.downloaded +
        (objs.filter (objMatched params)).length ∧
      st'.events.filter isDownloadEvent =
        st.events.filter isDownloadEvent ++
          (objs.filter (objMatched params)).map
            (fun o => Event.download o.name) := by
  refine ⟨fetchResultState env params objs st,
    fetch_oci_reports_ok env params cfg objs st hl hdl, rfl, ?_⟩
  simp [fetchResultState, List.filter_append, flatList_filter_download]

/-- Witness for C4 on the boundary listing: one object at midnight of the
target date (selected), one a second before it (day before, excluded),
one at midnight of the next day (excluded). -/
theorem c4_witness :
    ∃ st', fetch_oci_reports envAllOk params0 cfg0 (initState params0) =
        Except.ok st' ∧
      st'.downloaded = (initState params0).downloaded +
        (([objDayBefore, objMidnight, objDayAfter].filter
          (objMatched params0)).length) ∧
      st'.events.filter isDownloadEvent =
        (initState params0).events.filter isDownloadEvent ++
          (([objDayBefore, objMidnight, objDayAfter].filter
            (objMatched params0)).map (fun o => Event.download o.name)) :=
  c4_exact_date_selection envAllOk params0 cfg0
    [objDayBefore, objMidnight, objDayAfter] (initState params0) rfl
    (fun o _ _ => rfl)

/-- C5: provided only that the downloads themselves do not raise, the fetch
phase returns normally for every outcome of decompression and staging
uploads — a decompression or upload failure for one object never aborts the
loop — and the uploaded counter counts exactly the objects whose whole
decompress-and-upload chain succeeded (`objStaged`), which in particular
requires that object's decompression and upload to have succeeded. -/
theorem c5_local_failures_stay_local (env : Env) (params : Params)
    (cfg : OciConfig) (objs : List RemoteObject) (st : RunState)
    (hl : env.listing = Except.ok objs)
    (hdl : ∀ o ∈ objs, objMatched params o = true →
      env.downloadOk o.name = true) :
    ∃ st', fetch_oci_reports env params cfg st = Except.ok st' ∧
      st'.uploaded = st.uploaded +
        (objs.filter (objStaged env params)).length ∧
      ∀ o, objStaged env params o = true →
        env.gzipOk (objGzPath params o) = true ∧
        env.uploadOk params.GCS_REPORT_BUCKET_NAME
          (stagingDest params o) = true := by
  refine ⟨fetchResultState env params objs st,
    fetch_oci_reports_ok env params cfg objs st hl hdl, rfl, ?_⟩
  intro o ho
  unfold objStaged at ho
  simp only [Bool.and_eq_true] at ho
  exact ⟨ho.1.2, ho.2⟩

/-- Witness for C5 on a run with one decompression failure, one upload
failure and one pass-through object: staged count 0, no abort. -/
theorem c5_witness :
    ∃ st', fetch_oci_reports envLocalFailures params0 cfg0
        (initState params0) = Except.ok st' ∧
      st'.uploaded = (initState params0).uploaded +
        (([objMidnight, objSecondGz, objPlainCsv].filter
          (objStaged envLocalFailures params0)).length) ∧
      ∀ o, objStaged envLocalFailures params0 o = true →
        envLocalFailures.gzipOk (objGzPath params0 o) = true ∧
        envLocalFailures.uploadOk params0.GCS_REPORT_BUCKET_NAME
          (stagingDest params0 o) = true :=
  c5_local_failures_stay_local envLocalFailures params0 cfg0
    [objMidnight, objSecondGz, objPlainCsv] (initState params0) rfl
    (fun o _ _ => rfl)

/-- C9 counterexample: for the download "downloaded_reports/a.gz.gz" (which
ends in ".gz"), the claim mandates output basename "a.gz" — only the
trailing suffix removed, the inner ".gz" preserved — but the code's
`replace(".gz", "")` removes every occurrence and produces "csv_reports/a",
not `pathJoin "csv_reports" "a.gz"`. -/
theorem c9_counterexample_inner_gz_also_removed :
    (decompress_gz_file envAllOk "downloaded_reports/a.gz.gz"
        "csv_reports").1 = some "csv_reports/a" ∧
    ("csv_reports/a" : String) ≠ pathJoin "csv_reports" "a.gz" := by
  refine ⟨by decide, by decide⟩

/-- C9 (amended): for every downloaded file whose name ends in ".gz", the
decompressed output is placed in the decompression directory under the
basename with *every* occurrence of ".gz" removed (the left-to-right
non-overlapping scan `removeGzAll`), not only the trailing suffix; on
decompression failure the sentinel `none` is returned; and every filename
not ending in ".gz" is passed through unchanged without decompressing. -/
theorem c9_amended_decompression_strips_every_gz (env : Env)
    (destination_dir gz_path : String) :
    (pyEndsWith gz_path ".gz" = true → env.gzipOk gz_path = true →
      (decompress_gz_file env gz_path destination_dir).1 =
        some (pathJoin destination_dir
          (String.mk (removeGzAll (basenameL gz_path.data))))) ∧
    (pyEndsWith gz_path ".gz" = true → env.gzipOk gz_path = false →
      (decompress_gz_file env gz_path destination_dir).1 = none) ∧
    (pyEndsWith gz_path ".gz" = false →
      (decompress_gz_file env gz_path destination_dir).1 = some gz_path)
    := by
  refine ⟨?_, ?_, ?_⟩
  · intro h1 h2
    rw [decompress_gz_file_eq, if_neg (by simp [h1]), if_pos h2]
    simp [pyReplace_gz, pyBasename]
  · intro h1 h2
    rw [decompress_gz_file_eq, if_neg (by simp [h1]), if_neg (by simp [h2])]
  · intro h1
    rw [decompress_gz_file_eq, if_pos h1]

/-- Witness for the amended C9 at a concrete double-".gz" filename. -/
theorem c9_amended_witness :
    (decompress_gz_file envAllOk "downloaded_reports/a.gz.gz"
        "csv_reports").1 =
      some (pathJoin "csv_reports"
        (String.mk (removeGzAll (basenameL
          ("downloaded_reports/a.gz.gz" : String).data)))) :=
  (c9_amended_decompression_strips_every_gz envAllOk "csv_reports"
    "downloaded_reports/a.gz.gz").1 (by decide) rfl

/-- C10: a date-matched object whose name does not end in ".gz" is
downloaded and counted as downloaded, but the run never uploads it and the
uploaded counter is unchanged: `decompress_gz_file` passes the downloaded
path through unchanged, so the upload guard `uncompressed_path !=
gz_file_path` is false. -/
theorem c10_non_gz_downloaded_never_staged (env : Env) (params : Params)
    (st : RunState) (o : RemoteObject)
    (hm : dateOf o.timeCreated = params.TARGET_REPORT_DATE)
    (hgz : pyEndsWith o.name ".gz" = false)
    (hdl : env.downloadOk o.name = true) :
    processObject env params st o = Except.ok
      { fs := objGzPath params o :: st.fs,
        events := st.events ++ [Event.download o.name],
        downloaded := st.downloaded + 1,
        uploaded := st.uploaded } := by
  have hsuf : '/' ∉ (".gz" : String).data := by decide
  have hgzp : pyEndsWith (objGzPath params o) ".gz" = false := by
    rw [show objGzPath params o =
        pathJoin params.LOCAL_DOWNLOAD_DIR (pyBasename o.name) from rfl]
    rw [pyEndsWith_pathJoin _ _ _ hsuf, pyEndsWith_pyBasename _ _ hsuf]
    exact hgz
  have hmb : objMatched params o = true := by simp [objMatched, hm]
  rw [processObject_ok env params st o (fun _ => hdl)]
  have hstg : objStaged env params o = false := by
    simp [objStaged, hgzp]
  simp [objNewFiles, objEvents, hmb, hgzp, hstg]

/-- Witness for C10 at a concrete matched plain-CSV object. -/
theorem c10_witness :
    processObject envAllOk params0 (initState params0) objPlainCsv =
      Except.ok
        { fs := objGzPath params0 objPlainCsv :: (initState params0).fs,
          events := (initState params0).events ++
            [Event.download objPlainCsv.name],
          downloaded := (initState params0).downloaded + 1,
          uploaded := (initState params0).uploaded } :=
  c10_non_gz_downloaded_never_staged envAllOk params0 (initState params0)
    objPlainCsv (by decide) (by decide) rfl

/-- The final-log step only removes files, whether it returns or raises. -/
lemma cleanupLogStep_fs_subset (env : Env) (params : Params) (st : RunState)
    (q : String) (hq : q ∈ (stOf (cleanupLogStep env params st)).fs) :
    q ∈ st.fs := by
  unfold cleanupLogStep at hq
  by_cases h1 : params.LOCAL_LOG_FILE_PATH ∈ st.fs
  · rw [if_pos h1] at hq
    dsimp only at hq
    by_cases h2 : (upload_to_gcs env st.fs params.LOCAL_LOG_FILE_PATH
        params.LOG_GCS_BUCKET params.LOG_GCS_FOLDER).1 = true
    · rw [if_pos h2] at hq
      by_cases h3 : env.removeOk params.LOCAL_LOG_FILE_PATH = true
      · rw [if_pos h3] at hq
        simp only [stOf, List.mem_filter] at hq
        exact hq.1
      · rw [if_neg h3] at hq
        simpa [stOf] using hq
    · rw [if_neg h2] at hq
      simpa [stOf] using hq
  · rw [if_neg h1] at hq
    simpa [stOf] using hq

/-- Every file present at the start of the body (in particular the log file
created by `setup_logging`) is still present when the body finishes,
normally or by raising: no phase before cleanup ever deletes a local
file. -/
lemma runBody_fs_mem (env : Env) (params : Params) (q : String)
    (hq : q ∈ (initState params).fs) :
    q ∈ (stOf (runBody env params)).fs := by
  unfold runBody
  have hf1 := read_secret_text_fs env params.GCP_OCI_CONFIG_SECRET_ID
    (initState params)
  cases h1 : read_secret_text env params.GCP_OCI_CONFIG_SECRET_ID
      (initState params) with
  | error st =>
    rw [h1] at hf1
    simp only [stOfSecret] at hf1
    simp [stOf, hf1, hq]
  | ok pr =>
    obtain ⟨st1, pay1⟩ := pr
    rw [h1] at hf1
    simp only [stOfSecret] at hf1
    simp only [h1]
    have hq1 : q ∈ st1.fs := by rw [hf1]; exact hq
    have hf2 := read_secret_text_fs env params.GCP_OCI_KEY_SECRET_ID st1
    cases h2 : read_secret_text env params.GCP_OCI_KEY_SECRET_ID st1 with
    | error st =>
      rw [h2] at hf2
      simp only [stOfSecret] at hf2
      simp [stOf, h2, hf2, hq1]
    | ok pr2 =>
      obtain ⟨st2, pay2⟩ := pr2
      rw [h2] at hf2
      simp only [stOfSecret] at hf2
      simp only [h2]
      have hq2 : q ∈ st2.fs := by rw [hf2]; exact hq1
      have hf3 := create_oci_config_fs env params pay1 pay2 st2 q hq2
      cases h3 : create_oci_config_dict_from_ini env params pay1 pay2 st2
        with
      | error st =>
        rw [h3] at hf3
        simp only [stOfConfig] at hf3
        simp [stOf, h3, hf3]
      | ok pr3 =>
        obtain ⟨st3, cfg⟩ := pr3
        rw [h3] at hf3
        simp only [stOfConfig] at hf3
        simp only [h3]
        cases hL : env.listing with
        | error u =>
          simp only [fetch_oci_reports, hL]
          simpa [stOf] using hf3
        | ok objs =>
          simp only [fetch_oci_reports, hL]
          have hf4 := fetchGo_fs env params objs st3 q hf3
          cases h4 : fetchGo env params objs st3 with
          | error st =>
            rw [h4] at hf4
            simp only [stOf] at hf4
            simp [stOf, h4, hf4]
          | ok st4 =>
            rw [h4] at hf4
            simp only [stOf] at hf4
            simp only [h4]
            have hf5 := load_fs env params st4
            cases h5 : load_gcs_to_bigquery env params st4 with
            | error st =>
              rw [h5] at hf5
              simp only [stOf] at hf5
              simp [stOf, h5, hf5, hf4]
            | ok st5 =>
              rw [h5] at hf5
              simp only [stOf] at hf5
              simp only [h5]
              have hf6 := archive_fs env params st5
              rw [hf6, hf5]
              exact hf4

/-- C6: on every terminal path of a run — full success, or an exception in
any stage from credential setup through archiving (the environment is
universally quantified, so this covers a raising warehouse load) — the
cleanup phase runs and, provided the OS-level removal primitive itself
succeeds on them, the temporary credential config file and key file are
absent from the final filesystem. -/
theorem c6_cleanup_deletes_temp_credentials (env : Env) (params : Params)
    (h1 : env.removeOk params.TEMP_OCI_CONFIG_FILE = true)
    (h2 : env.removeOk params.TEMP_OCI_KEY_FILE = true) :
    params.TEMP_OCI_CONFIG_FILE ∉ mainFs env params ∧
    params.TEMP_OCI_KEY_FILE ∉ mainFs env params := by
  rw [mainFs_eq]
  unfold cleanupPhase
  set st := stOf (runBody env params) with hst
  set st1 := removeTempFile env params.TEMP_OCI_CONFIG_FILE st with hst1
  set st2 := removeTempFile env params.TEMP_OCI_KEY_FILE st1 with hst2
  set st3 := removeTreeDir env params.LOCAL_DOWNLOAD_DIR st2 with hst3
  set st4 := removeTreeDir env params.LOCAL_CSV_DIR st3 with hst4
  have hc1 : params.TEMP_OCI_CONFIG_FILE ∉ st4.fs := fun hm =>
    removeTempFile_not_mem_self env _ st h1
      (removeTempFile_fs_subset env _ st1 _
        (removeTreeDir_fs_subset env _ st2 _
          (removeTreeDir_fs_subset env _ st3 _ hm)))
  have hc2 : params.TEMP_OCI_KEY_FILE ∉ st4.fs := fun hm =>
    removeTempFile_not_mem_self env _ st1 h2
      (removeTreeDir_fs_subset env _ st2 _
        (removeTreeDir_fs_subset env _ st3 _ hm))
  exact ⟨fun hm => hc1 (cleanupLogStep_fs_subset env params st4 _ hm),
    fun hm => hc2 (cleanupLogStep_fs_subset env params st4 _ hm)⟩

/-- Witness for C6 on a concrete run whose warehouse load raises. -/
theorem c6_witness :
    params0.TEMP_OCI_CONFIG_FILE ∉ mainFs envLoadFail params0 ∧
    params0.TEMP_OCI_KEY_FILE ∉ mainFs envLoadFail params0 :=
  c6_cleanup_deletes_temp_credentials envLoadFail params0 rfl rfl

/-- C7: every run that reaches the warehouse-load stage (secrets present,
credential writes and parse succeed, listing succeeds, no matched download
raises) and whose job submission goes through issues exactly one load job,
configured with CSV source format, exactly one leading header row skipped,
schema autodetection disabled and write disposition WRITE_APPEND — whether
or not the job then succeeds, and across the rest of the run (archive and
cleanup) no further load job is ever issued. -/
theorem c7_single_append_csv_load_job (env : Env) (params : Params)
    (objs : List RemoteObject) (v1 v2 : String)
    (hv1 : env.secret params.GCP_OCI_CONFIG_SECRET_ID = some v1)
    (hv2 : env.secret params.GCP_OCI_KEY_SECRET_ID = some v2)
    (hk : env.writeFileOk params.TEMP_OCI_KEY_FILE = true)
    (hp : env.iniParseOk = true)
    (hc : env.writeFileOk params.TEMP_OCI_CONFIG_FILE = true)
    (hl : env.listing = Except.ok objs)
    (hdl : ∀ o ∈ objs, objMatched params o = true →
      env.downloadOk o.name = true)
    (hds : env.datasetExists = true ∨ env.createDatasetOk = true)
    (hsub : env.loadSubmitOk = true) :
    (mainEvents env params).filter isLoadJobEvent =
      [Event.loadJob
        { source_format := SourceFormat.CSV,
          skip_leading_rows := 1,
          autodetect := false,
          write_disposition := WriteDisposition.WRITE_APPEND }
        params.GCS_LOAD_URI] := by
  rw [mainEvents_eq]
  rw [cleanup_filter env params _ isLoadJobEvent (fun _ => rfl) (fun _ => rfl)
    (fun _ _ _ _ => rfl)]
  rw [runBody_eq env params objs v1 v2 hv1 hv2 hk hp hc hl hdl]
  have hpf : ((postFetchState env params objs).events).filter
      isLoadJobEvent = [] := by
    simp [postFetchState, isLoadJobEvent, List.filter_cons,
      flatList_objEvents_filter env params objs isLoadJobEvent
        (fun _ => rfl) (fun _ _ _ _ => rfl)]
  have hlf := load_filter_loadJob env params
    (postFetchState env params objs) hds hsub
  cases h5 : load_gcs_to_bigquery env params
      (postFetchState env params objs) with
  | error st =>
    rw [h5] at hlf
    simp only [stOf] at hlf
    simp only [h5]
    simp only [stOf]
    rw [hlf, hpf]
    simp [bqJobConfig]
  | ok st =>
    rw [h5] at hlf
    simp only [stOf] at hlf
    simp only [h5]
    rw [archive_filter env params st isLoadJobEvent (fun _ _ _ => rfl)
      (fun _ _ => rfl)]
    rw [hlf, hpf]
    simp [bqJobConfig]

/-- Witness for C7 on a concrete fully successful run. -/
theorem c7_witness :
    (mainEvents envAllOk params0).filter isLoadJobEvent =
      [Event.loadJob
        { source_format := SourceFormat.CSV,
          skip_leading_rows := 1,
          autodetect := false,
          write_disposition := WriteDisposition.WRITE_APPEND }
        params0.GCS_LOAD_URI] :=
  c7_single_append_csv_load_job envAllOk params0
    [objDayBefore, objMidnight, objDayAfter] "secret-payload"
    "secret-payload" rfl rfl rfl rfl rfl rfl (fun o _ _ => rfl)
    (Or.inl rfl) rfl

/-- The fixed remote object path the run log is uploaded to
(src/python.py:92 applied to the log call at src/python.py:467-472). -/
def logGcsPath (params : Params) : String :=
  if params.LOG_GCS_FOLDER = "" then pyBasename params.LOCAL_LOG_FILE_PATH
  else stripSlashes params.LOG_GCS_FOLDER ++ "/" ++
    pyBasename params.LOCAL_LOG_FILE_PATH

/-- C8: at the end of every run — the environment, and hence every
success/failure combination of the body, is universally quantified — the
local log file is uploaded to the fixed log location, and the local copy is
deleted if and only if that upload reports success.  The hypotheses say
only that the configured paths do not collide (the log file is not one of
the temp credential files nor inside a scratch directory) and that the
OS-level removal primitive itself works. -/
theorem c8_log_uploaded_and_deleted_iff_success (env : Env)
    (params : Params)
    (hne1 : params.LOCAL_LOG_FILE_PATH ≠ params.TEMP_OCI_CONFIG_FILE)
    (hne2 : params.LOCAL_LOG_FILE_PATH ≠ params.TEMP_OCI_KEY_FILE)
    (hnd1 : pyStartsWith (params.LOCAL_DOWNLOAD_DIR ++ "/")
      params.LOCAL_LOG_FILE_PATH = false)
    (hnd2 : pyStartsWith (params.LOCAL_CSV_DIR ++ "/")
      params.LOCAL_LOG_FILE_PATH = false)
    (hrm : env.removeOk params.LOCAL_LOG_FILE_PATH = true) :
    Event.gcsUpload params.LOCAL_LOG_FILE_PATH params.LOG_GCS_BUCKET
        (logGcsPath params)
        (env.uploadOk params.LOG_GCS_BUCKET (logGcsPath params)) ∈
      mainEvents env params ∧
    (params.LOCAL_LOG_FILE_PATH ∈ mainFs env params ↔
      env.uploadOk params.LOG_GCS_BUCKET (logGcsPath params) = false) := by
  rw [mainEvents_eq, mainFs_eq]
  unfold cleanupPhase
  set st := stOf (runBody env params) with hst
  have hlog : params.LOCAL_LOG_FILE_PATH ∈ st.fs := by
    rw [hst]
    exact runBody_fs_mem env params _ (by simp [initState])
  set st1 := removeTempFile env params.TEMP_OCI_CONFIG_FILE st with hst1
  have hm1 := removeTempFile_mem_of_ne env _ st _ hlog hne1
  set st2 := removeTempFile env params.TEMP_OCI_KEY_FILE st1 with hst2
  have hm2 := removeTempFile_mem_of_ne env _ st1 _ hm1 hne2
  set st3 := removeTreeDir env params.LOCAL_DOWNLOAD_DIR st2 with hst3
  have hm3 := removeTreeDir_mem_of_outside env _ st2 _ hm2 hnd1
  set st4 := removeTreeDir env params.LOCAL_CSV_DIR st3 with hst4
  have hm4 := removeTreeDir_mem_of_outside env _ st3 _ hm3 hnd2
  unfold cleanupLogStep
  rw [if_pos hm4]
  dsimp only
  simp only [upload_to_gcs, if_pos hm4]
  have hpath : (if params.LOG_GCS_FOLDER = ""
      then pyBasename params.LOCAL_LOG_FILE_PATH
      else stripSlashes params.LOG_GCS_FOLDER ++ "/" ++
        pyBasename params.LOCAL_LOG_FILE_PATH) = logGcsPath params := rfl
  rw [hpath]
  by_cases hup : env.uploadOk params.LOG_GCS_BUCKET (logGcsPath params)
      = true
  · rw [if_pos hup, if_pos hrm]
    constructor
    · simp [stOf, hup]
    · simp [stOf, List.mem_filter, hup]
  · simp only [Bool.not_eq_true] at hup
    rw [if_neg (by simp [hup])]
    constructor
    · simp [stOf, hup]
    · simp [stOf, hm4, hup]

/-- Witness for C8 on a concrete fully successful run. -/
theorem c8_witness :
    Event.gcsUpload params0.LOCAL_LOG_FILE_PATH params0.LOG_GCS_BUCKET
        (logGcsPath params0)
        (envAllOk.uploadOk params0.LOG_GCS_BUCKET (logGcsPath params0)) ∈
      mainEvents envAllOk params0 ∧
    (params0.LOCAL_LOG_FILE_PATH ∈ mainFs envAllOk params0 ↔
      envAllOk.uploadOk params0.LOG_GCS_BUCKET (logGcsPath params0)
        = false) :=
  c8_log_uploaded_and_deleted_iff_success envAllOk params0 (by decide)
    (by decide) (by decide) (by decide) rfl
